import Mathlib

/-!
# Backup retention pipeline (`main.go`)

A shallow embedding of the program in `main.go`: the `Backup` record, the
classification loop of `main`, `loadMock`, `createLog`, `copyFile` and `main`
itself, run against an in-memory file store with scripted failures.

Modelling conventions.

* `time.Time` is an instant (nanoseconds since the Unix epoch) together with its
  location; a location is the offset in force before its first transition and the list
  of its transitions. `Before` compares instants. `AddDate(0, 0, d)` keeps the wall
  clock reading of the location and moves the date by `d` days, then converts back to
  an instant the way `time.Date` does, so across a change of offset the result is not
  `d` times 24 hours away.
* The file store maps cleaned Unix paths to contents of regular files.  Every
  fallible operation first consults the next entry of a failure script, so a run
  can be made to fail at any operation, in any pattern.
* `json.Unmarshal` and `Time.Format(time.RFC3339)` are library functions; they are
  parameters of the run (`Env`).
* Standard output is the list of the strings printed, one per `fmt.Println` call;
  the list of file-store calls made so far is kept in `World.trace`.
-/

namespace BackupRetention

/-! ## Time -/

/-- A zone offset in seconds east of UTC. Offsets of the time zone database lie within
16 hours of UTC; the model admits every offset of magnitude below one day. -/
structure ZoneOffset where
  seconds : Int
  small : -86400 < seconds ∧ seconds < 86400
deriving DecidableEq, Repr

/-- A `*time.Location`: the offset in force before the first transition, and the transitions
(Unix second at which it happens, offset from then on) in ascending order, those generated by
the rule of the zone included. -/
structure Location where
  first : ZoneOffset
  tx : List (Int × ZoneOffset)
deriving DecidableEq, Repr

/-- The location `time.UTC`. -/
def UTC : Location := ⟨⟨0, by decide⟩, []⟩

/-- The bounds `alpha` and `omega` of the time line in package `time`. -/
def alpha : Int := -9223372036854775808
def omega : Int := 9223372036854775807

/-- Walk the transitions: `cur` is the offset in force since `start`. The result is the offset
in force at `sec` and the half-open span `[start, end)` over which it is in force. -/
def lookupFrom (cur : ZoneOffset) (start : Int) : List (Int × ZoneOffset) → Int → Int × Int × Int
  | [], _ => (cur.seconds, start, omega)
  | (w, z) :: rest, sec =>
    if sec < w then (cur.seconds, start, w) else lookupFrom z w rest sec

/-- The method `(*Location).lookup`, without the zone name and the DST flag:
`(offset, start, end)` for the Unix second `sec`. -/
def Location.lookup (l : Location) (sec : Int) : Int × Int × Int :=
  lookupFrom l.first alpha l.tx sec

/-- The end of `time.Date`: `unix` is the requested wall clock reading taken as if it were UTC;
the offset found for it is subtracted, looked up again when the first guess falls outside the
span it was found for. -/
def zoneAdjust (loc : Location) (unix : Int) : Int :=
  match loc.lookup unix with
  | (offset, start, stop) =>
    if offset ≠ 0 then
      if unix - offset < start ∨ unix - offset ≥ stop then unix - (loc.lookup (unix - offset)).1
      else unix - offset
    else unix

/-- A `time.Time` value: an instant in nanoseconds since the Unix epoch, and its location. -/
structure Time where
  unixNano : Int
  loc : Location
deriving DecidableEq, Repr

/-- Nanoseconds in 24 hours. -/
def nanosPerDay : Int := 86400 * 1000000000

/-- `t.Before(u)`: the instant `t` is strictly earlier than the instant `u`. -/
def Time.Before (t u : Time) : Bool := decide (t.unixNano < u.unixNano)

/-- `t.AddDate(0, 0, days)`. The source is
`Date(year, month, day+days, hour, min, sec, nsec, t.Location())` on the fields of `t`:
`abs` is the wall clock reading of `t` in its location, in seconds; `Date` normalises the day
overflow by counting days, so the requested reading is `abs + days * 86400`; the nanoseconds
are kept. -/
def Time.AddDate (t : Time) (days : Int) : Time :=
  let sec := t.unixNano / 1000000000
  let nsec := t.unixNano % 1000000000
  let abs := sec + (t.loc.lookup sec).1
  let unix := abs + days * 86400
  { unixNano := zoneAdjust t.loc unix * 1000000000 + nsec, loc := t.loc }

/-! ## Data model and constants -/

/-- The `Backup` struct. `TamanhoBytes` is an `int64` in the source; it is only printed. -/
structure Backup where
  Nome : String
  TamanhoBytes : Int
  DataCriacao : Time
  UltimaModificacao : Time
deriving DecidableEq, Repr

def sourceDir : String := "./valcann/backupsFrom"
def destinationDir : String := "./valcann/backupsTo"
def logFrom : String := "./valcann/backupsFrom.log"
def logTo : String := "./valcann/backupsTo.log"
def daysLimit : Int := 3
def mockFile : String := "./valcann/mock.json"

/-! ## Classification loop (`main`, lines 46-57) -/

/-- One iteration of the loop body: the state is the pair `(toCopy, toDelete)`. -/
def classifyStep (limit : Time) (acc : List Backup × List Backup) (b : Backup) :
    List Backup × List Backup :=
  if b.DataCriacao.Before limit then (acc.1, acc.2 ++ [b]) else (acc.1 ++ [b], acc.2)

/-- The loop `for _, b := range backups`, started with both slices empty.
The result is `(toCopy, toDelete)`. -/
def classify (backups : List Backup) (limit : Time) : List Backup × List Backup :=
  backups.foldl (classifyStep limit) ([], [])

/-- The cutoff `limit := time.Now().AddDate(0, 0, -R)` for a retention window of `R` days. -/
def cutoff (now : Time) (R : Int) : Time := now.AddDate (-R)

/-! ## Paths (`filepath.Clean`, `filepath.Join` on Unix) -/

/-- Split a path at every `/`. -/
def splitSlash : List Char → List (List Char)
  | [] => [[]]
  | c :: cs =>
    if c = '/' then [] :: splitSlash cs
    else match splitSlash cs with
      | [] => [[c]]
      | s :: ss => (c :: s) :: ss

/-- Process path elements left to right; `stack` holds the kept elements, last first.
Empty and `.` elements are dropped; `..` removes the previous element when there is one
that is not itself `..`, is dropped at the root of a rooted path, and is kept otherwise. -/
def cleanSegs (rooted : Bool) : List (List Char) → List (List Char) → List (List Char)
  | [], stack => stack.reverse
  | seg :: rest, stack =>
    if seg = [] ∨ seg = ['.'] then cleanSegs rooted rest stack
    else if seg = ['.', '.'] then
      match stack with
      | [] => if rooted then cleanSegs rooted rest [] else cleanSegs rooted rest [seg]
      | top :: below =>
        if top = ['.', '.'] then cleanSegs rooted rest (seg :: stack)
        else cleanSegs rooted rest below
    else cleanSegs rooted rest (seg :: stack)

/-- The function `filepath.Clean` for `/`-separated paths. -/
def Clean (path : String) : String :=
  let rooted := path.data.head? = some '/'
  let segs := cleanSegs rooted (splitSlash path.data) []
  let body := String.intercalate "/" (segs.map String.mk)
  let out := (if rooted then "/" else "") ++ body
  if out = "" then "." else out

/-- The function `filepath.Join` for two elements: the elements from the first non-empty one on
are joined with `/` and cleaned; the result is empty when both are empty. -/
def Join (a b : String) : String :=
  if a ≠ "" then Clean (a ++ "/" ++ b)
  else if b ≠ "" then Clean b
  else ""

/-! ## Errors, the failure script and the world -/

/-- A Go `error` coming from the file store or the decoder: whether `os.IsNotExist`
holds of it, and its `Error()` text. -/
structure GoError where
  isNotExist : Bool
  msg : String
deriving DecidableEq, Repr

/-- The `*fs.PathError` a file-store call `op` returns for a path that names no file. -/
def errNotExist (op path : String) : GoError :=
  { isNotExist := true, msg := op ++ " " ++ path ++ ": no such file or directory" }

/-- One entry of the failure script: the next fallible call either runs normally or
fails with `err`; a failing write has put `written` characters into the file before. -/
inductive Fault where
  | ok
  | fail (err : GoError) (written : Nat)
deriving DecidableEq, Repr

/-- A call made to the file store, with the path arguments as the program passed them. -/
inductive Call where
  | mkdirAll (path : String)
  | readFile (path : String)
  | create (path : String)
  | writeString (path : String) (s : String)
  | remove (path : String)
  | openFile (path : String)
  | copy (dst src : String)
deriving DecidableEq, Repr

/-- The state a run acts on. -/
structure World where
  files : String → Option String
  dirs : List String
  faults : List Fault
  stdout : List String
  trace : List Call

/-- An open `*os.File`, identified by the path it was opened with. -/
structure File where
  name : String
deriving DecidableEq, Repr

/-- The library functions and the clock reading a run depends on. -/
structure Env where
  now : Time
  unmarshal : String → Except GoError (List Backup)
  formatRFC3339 : Time → String

/-- The outcome scripted for the next fallible call (`ok` once the script is exhausted). -/
def World.fault (w : World) : Fault := w.faults.headD Fault.ok

/-- Record a call: it goes to the trace and uses up one entry of the script. -/
def World.enter (w : World) (c : Call) : World :=
  { w with faults := w.faults.tail, trace := w.trace ++ [c] }

/-- Replace the content of one file (`none` removes it). -/
def World.setFile (w : World) (path : String) (c : Option String) : World :=
  { w with files := fun p => if p = Clean path then c else w.files p }

/-- The content of the regular file at `path`, if there is one. -/
def World.content (w : World) (path : String) : Option String := w.files (Clean path)

/-- The call `fmt.Println(args...)`: operands separated by spaces, then a newline. -/
def Println (args : List String) (w : World) : World :=
  { w with stdout := w.stdout ++ [String.intercalate " " args ++ "\n"] }

/-! ## File-store primitives -/

/-- The call `os.MkdirAll(path, perm)`; `main` discards its result. -/
def osMkdirAll (path : String) (w : World) : Option GoError × World :=
  let w1 := w.enter (Call.mkdirAll path)
  match w.fault with
  | Fault.fail e _ => (some e, w1)
  | Fault.ok => (none, { w1 with dirs := w1.dirs ++ [Clean path] })

/-- The call `os.ReadFile(path)`. -/
def osReadFile (path : String) (w : World) : Except GoError String × World :=
  let w1 := w.enter (Call.readFile path)
  match w.fault with
  | Fault.fail e _ => (Except.error e, w1)
  | Fault.ok =>
    match w.content path with
    | none => (Except.error (errNotExist "open" path), w1)
    | some data => (Except.ok data, w1)

/-- The call `os.Create(path)`: creates the file or truncates it to empty. -/
def osCreate (path : String) (w : World) : Except GoError File × World :=
  let w1 := w.enter (Call.create path)
  match w.fault with
  | Fault.fail e _ => (Except.error e, w1)
  | Fault.ok => (Except.ok ⟨path⟩, w1.setFile path (some ""))

/-- The call `f.WriteString(s)`: appends at the end of the file written so far. -/
def fileWriteString (f : File) (s : String) (w : World) : Option GoError × World :=
  let w1 := w.enter (Call.writeString f.name s)
  let old := (w.content f.name).getD ""
  match w.fault with
  | Fault.fail e n => (some e, w1.setFile f.name (some (old ++ String.mk (s.data.take n))))
  | Fault.ok => (none, w1.setFile f.name (some (old ++ s)))

/-- The call `os.Remove(path)`. -/
def osRemove (path : String) (w : World) : Option GoError × World :=
  let w1 := w.enter (Call.remove path)
  match w.fault with
  | Fault.fail e _ => (some e, w1)
  | Fault.ok =>
    match w.content path with
    | none => (some (errNotExist "remove" path), w1)
    | some _ => (none, w1.setFile path none)

/-- The call `os.Open(path)`. -/
def osOpen (path : String) (w : World) : Except GoError File × World :=
  let w1 := w.enter (Call.openFile path)
  match w.fault with
  | Fault.fail e _ => (Except.error e, w1)
  | Fault.ok =>
    match w.content path with
    | none => (Except.error (errNotExist "open" path), w1)
    | some _ => (Except.ok ⟨path⟩, w1)

/-- The call `io.Copy(dst, src)`, its byte count dropped: appends what `src` holds to `dst`. -/
def ioCopy (dst src : File) (w : World) : Option GoError × World :=
  let w1 := w.enter (Call.copy dst.name src.name)
  let data := (w.content src.name).getD ""
  let old := (w.content dst.name).getD ""
  match w.fault with
  | Fault.fail e n => (some e, w1.setFile dst.name (some (old ++ String.mk (data.data.take n))))
  | Fault.ok => (none, w1.setFile dst.name (some (old ++ data)))

/-! ## The program -/

/-- The function `loadMock`. -/
def loadMock (env : Env) (path : String) (w : World) : Except GoError (List Backup) × World :=
  match osReadFile path w with
  | (Except.error e, w1) => (Except.error e, w1)
  | (Except.ok data, w1) =>
    match env.unmarshal data with
    | Except.error e => (Except.error e, w1)
    | Except.ok backups => (Except.ok backups, w1)

/-- The string `fmt.Sprintf` builds for one record in `createLog`. -/
def logLine (env : Env) (b : Backup) : String :=
  "Nome: " ++ b.Nome ++ " | Tamanho: " ++ toString b.TamanhoBytes ++ " bytes | Criado: " ++
    env.formatRFC3339 b.DataCriacao ++ " | Última modificação: " ++
    env.formatRFC3339 b.UltimaModificacao ++ "\n"

/-- The loop of `createLog`: one `WriteString` per record, stopping at the first error. -/
def writeLines (env : Env) (f : File) : List Backup → World → Option GoError × World
  | [], w => (none, w)
  | b :: bs, w =>
    match fileWriteString f (logLine env b) w with
    | (some e, w1) => (some e, w1)
    | (none, w1) => writeLines env f bs w1

/-- The function `createLog` (the deferred `f.Close()` has no effect on the model). -/
def createLog (env : Env) (backups : List Backup) (logPath : String) (w : World) :
    Option GoError × World :=
  match osCreate logPath w with
  | (Except.error e, w1) => (some e, w1)
  | (Except.ok f, w1) => writeLines env f backups w1

/-- The function `copyFile`. -/
def copyFile (src dst : String) (w : World) : Option GoError × World :=
  match osOpen src w with
  | (Except.error e, w1) => (some e, w1)
  | (Except.ok sourceFile, w1) =>
    match osCreate dst w1 with
    | (Except.error e, w2) => (some e, w2)
    | (Except.ok destinationFile, w2) => ioCopy destinationFile sourceFile w2

/-- Body of the loop "Remover arquivos antigos" for one record. -/
def removeStep (f : Backup) (w : World) : World :=
  match osRemove (Join sourceDir f.Nome) w with
  | (some err, w1) =>
    if !err.isNotExist then Println ["Erro ao remover:", f.Nome, err.msg] w1
    else Println ["Removido:", f.Nome] w1
  | (none, w1) => Println ["Removido:", f.Nome] w1

/-- The loop "Remover arquivos antigos". -/
def deletePhase (toDelete : List Backup) (w : World) : World :=
  toDelete.foldl (fun acc f => removeStep f acc) w

/-- Body of the loop "Copiar arquivos novos" for one record. -/
def copyStep (f : Backup) (w : World) : World :=
  match copyFile (Join sourceDir f.Nome) (Join destinationDir f.Nome) w with
  | (some err, w1) => Println ["Erro ao copiar:", f.Nome, err.msg] w1
  | (none, w1) => Println ["Copiado:", f.Nome] w1

/-- The loop "Copiar arquivos novos". -/
def copyPhase (toCopy : List Backup) (w : World) : World :=
  toCopy.foldl (fun acc f => copyStep f acc) w

/-- The message printed when the run completes. -/
def successMsg : String := "Processo concluído com sucesso!\n"

/-- The part of `main` after the full-set log is written: classify, delete, copy,
write the copied-set log. -/
def process (env : Env) (backups : List Backup) (w : World) : World :=
  let parts := classify backups (cutoff env.now daysLimit)
  let toCopy := parts.1
  let toDelete := parts.2
  let w1 := deletePhase toDelete w
  let w2 := copyPhase toCopy w1
  match createLog env toCopy logTo w2 with
  | (some err, w3) => Println ["Erro ao criar log de destino:", err.msg] w3
  | (none, w3) => Println ["Processo concluído com sucesso!"] w3

/-- The function `main`. -/
def main (env : Env) (w : World) : World :=
  let w1 := (osMkdirAll sourceDir w).2
  let w2 := (osMkdirAll destinationDir w1).2
  match loadMock env mockFile w2 with
  | (Except.error err, w3) => Println ["Erro ao carregar mock:", err.msg] w3
  | (Except.ok backups, w3) =>
    match createLog env backups logFrom w3 with
    | (some err, w4) => Println ["Erro ao criar log de origem:", err.msg] w4
    | (none, w4) => process env backups w4

/-! ## Derived notions used in the statements -/

/-- The world after the two `os.MkdirAll` calls that open `main`. -/
def bootstrap (w : World) : World :=
  (osMkdirAll destinationDir (osMkdirAll sourceDir w).2).2

/-- The pair `(toCopy, toDelete)` that `main` computes from the loaded records. -/
def plan (env : Env) (backups : List Backup) : List Backup × List Backup :=
  classify backups (cutoff env.now daysLimit)

/-- The world in which `main` starts writing the copied-set log: after the delete phase
and the copy phase, run from `w`. -/
def afterPhases (env : Env) (backups : List Backup) (w : World) : World :=
  copyPhase (plan env backups).1 (deletePhase (plan env backups).2 w)

/-- The path the delete phase removes and the copy phase reads for a record. -/
def srcPath (b : Backup) : String := Join sourceDir b.Nome

/-- The path the copy phase writes for a record. -/
def dstPath (b : Backup) : String := Join destinationDir b.Nome

/-- The text of a full report: the lines of the records, in order. -/
def render (env : Env) : List Backup → String
  | [] => ""
  | b :: bs => logLine env b ++ render env bs

/-- Number of newline-terminated lines of a text. -/
def lineCount (s : String) : Nat := s.data.count '\n'

/-- The next `n` fallible calls run normally. -/
def World.okFor (w : World) (n : Nat) : Prop := ∀ f ∈ w.faults.take n, f = Fault.ok

instance (w : World) (n : Nat) : Decidable (w.okFor n) := by
  unfold World.okFor; infer_instance

/-! ## Sample data for the concrete runs -/

/-- Midnight UTC of the given day of January 2024. -/
def jan2024 (day : Int) : Time := ⟨(1704067200 + (day - 1) * 86400) * 1000000000, UTC⟩

/-- RFC 3339 text of the instants used in the sample runs (all in UTC). -/
def sampleFormat (t : Time) : String :=
  if t = jan2024 10 then "2024-01-10T00:00:00Z"
  else if t = jan2024 9 then "2024-01-09T00:00:00Z"
  else if t = jan2024 5 then "2024-01-05T00:00:00Z"
  else if t = jan2024 1 then "2024-01-01T00:00:00Z"
  else "0001-01-01T00:00:00Z"

/-- A world with the given files, nothing printed, no call made, and the given script. -/
def worldOf (files : List (String × String)) (faults : List Fault) : World :=
  { files := fun p => (files.lookup p), dirs := [], faults := faults, stdout := [], trace := [] }

/-- A sample environment: the clock reads 2024-01-10T00:00:00Z and the decoder yields `backups`
for any well-formed input. -/
def sampleEnv (backups : List Backup) : Env :=
  { now := jan2024 10,
    unmarshal := fun data =>
      if data = "" then Except.error ⟨false, "unexpected end of JSON input"⟩
      else Except.ok backups,
    formatRFC3339 := sampleFormat }

/-- A record created one day before the sample clock reading. -/
def recA : Backup := ⟨"a.bak", 10, jan2024 9, jan2024 10⟩

/-- A record created five days before the sample clock reading. -/
def recB : Backup := ⟨"b.bak", 20, jan2024 5, jan2024 10⟩

/-- A store holding the metadata file and the artifacts of `recA` and `recB`. -/
def sampleFiles : List (String × String) :=
  [("valcann/mock.json", "[...]"), ("valcann/backupsFrom/a.bak", "AAA"),
   ("valcann/backupsFrom/b.bak", "BBB")]

/-- No failure is scripted: every call behaves normally. -/
def World.quiet (w : World) : Prop := ∀ f ∈ w.faults, f = Fault.ok

instance (w : World) : Decidable w.quiet := by
  unfold World.quiet; infer_instance

/-- Two records with the same name, created five days and one day before the sample
clock reading. -/
def recOld : Backup := ⟨"x.bak", 30, jan2024 5, jan2024 5⟩
def recNew : Backup := ⟨"x.bak", 30, jan2024 9, jan2024 9⟩

/-- The world in which `main` has loaded the metadata. -/
def loadedWorld (env : Env) (w : World) : World :=
  (loadMock env mockFile (bootstrap w)).2

/-- The world in which `main` has written the full-set log for `backups`. -/
def loggedWorld (env : Env) (backups : List Backup) (w : World) : World :=
  (createLog env backups logFrom (loadedWorld env w)).2

/-- New York over 2023 and 2024: five hours west of UTC, four during daylight saving time,
which in 2024 starts on 10 March at 07:00 UTC. -/
def newYork : Location :=
  ⟨⟨-18000, by decide⟩,
   [(1678604400, ⟨-14400, by decide⟩), (1699164000, ⟨-18000, by decide⟩),
    (1710054000, ⟨-14400, by decide⟩), (1730613600, ⟨-18000, by decide⟩)]⟩

/-- Noon in New York on 11 March 2024 (16:00 UTC), the day after the clocks went forward. -/
def noonAfterDst : Time := ⟨1710172800000000000, newYork⟩

/-- A record created 71 hours and 30 minutes before `noonAfterDst`. -/
def recDst : Backup := ⟨"dst.bak", 40, ⟨1709915400000000000, UTC⟩, ⟨1709915400000000000, UTC⟩⟩
theorem foldl_classifyStep (limit : Time) (l : List Backup) (acc : List Backup × List Backup) :
    l.foldl (classifyStep limit) acc =
      (acc.1 ++ l.filter (fun b => !b.DataCriacao.Before limit),
       acc.2 ++ l.filter (fun b => b.DataCriacao.Before limit)) := by
  induction l generalizing acc with
  | nil => simp
  | cons b bs ih =>
    rw [List.foldl_cons, ih]
    by_cases h : b.DataCriacao.Before limit = true
    · simp [classifyStep, h]
    · simp [classifyStep, h]

theorem classify_eq_filter (backups : List Backup) (limit : Time) :
    classify backups limit =
      (backups.filter (fun b => !b.DataCriacao.Before limit),
       backups.filter (fun b => b.DataCriacao.Before limit)) := by
  simp [classify, foldl_classifyStep]

theorem filter_not_append_filter_perm (p : Backup → Bool) (l : List Backup) :
    (l.filter (fun b => !p b) ++ l.filter p).Perm l := by
  induction l with
  | nil => simp
  | cons b bs ih =>
    by_cases h : p b = true
    · simp only [List.filter_cons, h, Bool.not_true, Bool.false_eq_true, if_false, if_true]
      exact (List.perm_middle).trans (ih.cons b)
    · simp only [List.filter_cons, h, Bool.not_eq_true] at *
      simp only [h, Bool.not_false, if_true, Bool.false_eq_true, if_false, List.cons_append]
      exact ih.cons b

/-! ## The cutoff -/

theorem lookupFrom_bound (cur : ZoneOffset) (start : Int) (l : List (Int × ZoneOffset))
    (sec : Int) :
    -86400 < (lookupFrom cur start l sec).1 ∧ (lookupFrom cur start l sec).1 < 86400 := by
  induction l generalizing cur start with
  | nil => exact cur.small
  | cons x xs ih =>
    obtain ⟨w, z⟩ := x
    unfold lookupFrom
    by_cases h : sec < w
    · simp only [h, if_true]; exact cur.small
    · simp only [h, if_false]; exact ih z w

theorem zoneAdjust_bound (loc : Location) (unix : Int) :
    unix - 86400 < zoneAdjust loc unix ∧ zoneAdjust loc unix < unix + 86400 := by
  have h1 := lookupFrom_bound loc.first alpha loc.tx unix
  have h2 := lookupFrom_bound loc.first alpha loc.tx (unix - (loc.lookup unix).1)
  unfold zoneAdjust
  rcases hl : loc.lookup unix with ⟨offset, start, stop⟩
  have hoff : (loc.lookup unix).1 = offset := by rw [hl]
  have h1' : -86400 < offset ∧ offset < 86400 := by
    rw [← hoff]; exact h1
  have h2' : -86400 < (loc.lookup (unix - offset)).1 ∧
      (loc.lookup (unix - offset)).1 < 86400 := by
    rw [hoff] at h2; exact h2
  simp only
  split_ifs <;> omega

theorem AddDate_bound (t : Time) (days : Int) :
    t.unixNano + days * nanosPerDay - 2 * nanosPerDay < (t.AddDate days).unixNano ∧
    (t.AddDate days).unixNano < t.unixNano + days * nanosPerDay + 2 * nanosPerDay := by
  have h1 := lookupFrom_bound t.loc.first alpha t.loc.tx (t.unixNano / 1000000000)
  have h2 := zoneAdjust_bound t.loc
    (t.unixNano / 1000000000 + (t.loc.lookup (t.unixNano / 1000000000)).1 + days * 86400)
  have h3 : (t.loc.lookup (t.unixNano / 1000000000)).1 =
      (lookupFrom t.loc.first alpha t.loc.tx (t.unixNano / 1000000000)).1 := rfl
  simp only [Time.AddDate, nanosPerDay]
  omega

theorem AddDate_fixed (t : Time) (days : Int) (h : t.loc.tx = []) :
    (t.AddDate days).unixNano = t.unixNano + days * nanosPerDay := by
  have hl : ∀ s, t.loc.lookup s = (t.loc.first.seconds, alpha, omega) := by
    intro s; simp [Location.lookup, h, lookupFrom]
  simp only [Time.AddDate, zoneAdjust, hl, nanosPerDay]
  split_ifs <;> omega

/-- The cutoff across a change of offset: at noon in New York on 11 March 2024 the cutoff of a
three-day window is noon on 8 March, 71 hours earlier, and a record created 71 hours and 30
minutes before now is deleted. -/
theorem cutoff_across_dst :
    (cutoff noonAfterDst 3).unixNano = noonAfterDst.unixNano - 71 * 3600 * 1000000000 ∧
    classify [recDst] (cutoff noonAfterDst 3) = ([], [recDst]) := by
  decide

/-- C1. For every record sequence, reference time `now` and retention window `R`, each input
record lands in exactly one of `toCopy` / `toDelete`; it is in `toDelete` exactly when its
`DataCriacao` is strictly before the cutoff `now.AddDate(0, 0, -R)`, so a record created
exactly at the cutoff is in `toCopy`. The cutoff is the instant with the wall clock reading of
`now` `R` days earlier: `R` times 24 hours before `now` in a location without transitions,
and less than two days away from that in every location. -/
theorem classify_by_cutoff (backups : List Backup) (now : Time) (R : Int) (b : Backup)
    (hb : b ∈ backups) :
    (b ∈ (classify backups (cutoff now R)).2 ↔
      b.DataCriacao.unixNano < (cutoff now R).unixNano) ∧
    (b ∈ (classify backups (cutoff now R)).1 ↔
      ¬ b.DataCriacao.unixNano < (cutoff now R).unixNano) ∧
    ((b ∈ (classify backups (cutoff now R)).1 ∨ b ∈ (classify backups (cutoff now R)).2) ∧
      ¬ (b ∈ (classify backups (cutoff now R)).1 ∧ b ∈ (classify backups (cutoff now R)).2)) ∧
    (b.DataCriacao.unixNano = (cutoff now R).unixNano →
      b ∈ (classify backups (cutoff now R)).1 ∧ b ∉ (classify backups (cutoff now R)).2) ∧
    cutoff now R = now.AddDate (-R) ∧
    (now.loc.tx = [] → (cutoff now R).unixNano = now.unixNano - R * nanosPerDay) ∧
    (now.unixNano - R * nanosPerDay - 2 * nanosPerDay < (cutoff now R).unixNano ∧
      (cutoff now R).unixNano < now.unixNano - R * nanosPerDay + 2 * nanosPerDay) := by
  have h2 : b ∈ (classify backups (cutoff now R)).2 ↔
      b.DataCriacao.unixNano < (cutoff now R).unixNano := by
    simp [classify_eq_filter, Time.Before, hb]
  have h1 : b ∈ (classify backups (cutoff now R)).1 ↔
      ¬ b.DataCriacao.unixNano < (cutoff now R).unixNano := by
    simp [classify_eq_filter, Time.Before, hb]
  refine ⟨h2, h1, ⟨?_, ?_⟩, ?_, rfl, ?_, ?_⟩
  · by_cases h : b.DataCriacao.unixNano < (cutoff now R).unixNano
    · exact Or.inr (h2.mpr h)
    · exact Or.inl (h1.mpr h)
  · rintro ⟨ha, hd⟩
    exact (h1.mp ha) (h2.mp hd)
  · intro he
    have hn : ¬ b.DataCriacao.unixNano < (cutoff now R).unixNano := by omega
    exact ⟨h1.mpr hn, fun hd => hn (h2.mp hd)⟩
  · intro hfix
    have := AddDate_fixed now (-R) hfix
    rw [cutoff, this]
    ring
  · have := AddDate_bound now (-R)
    rw [cutoff]
    constructor
    · have h := this.1
      linarith
    · have h := this.2
      linarith

/-- Witness for C1: at noon in New York on 11 March 2024, a record created exactly at the
cutoff, noon on 8 March, is in `toCopy`, not in `toDelete`. -/
theorem classify_by_cutoff_witness :
    (⟨"x", 1, ⟨1709917200000000000, UTC⟩, ⟨0, UTC⟩⟩ : Backup) ∈
      [recDst, ⟨"x", 1, ⟨1709917200000000000, UTC⟩, ⟨0, UTC⟩⟩] ∧
    (⟨"x", 1, ⟨1709917200000000000, UTC⟩, ⟨0, UTC⟩⟩ : Backup) ∈
      (classify [recDst, ⟨"x", 1, ⟨1709917200000000000, UTC⟩, ⟨0, UTC⟩⟩]
        (cutoff noonAfterDst 3)).1 ∧
    (⟨"x", 1, ⟨1709917200000000000, UTC⟩, ⟨0, UTC⟩⟩ : Backup) ∉
      (classify [recDst, ⟨"x", 1, ⟨1709917200000000000, UTC⟩, ⟨0, UTC⟩⟩]
        (cutoff noonAfterDst 3)).2 :=
  ⟨by decide,
   (classify_by_cutoff [recDst, ⟨"x", 1, ⟨1709917200000000000, UTC⟩, ⟨0, UTC⟩⟩] noonAfterDst 3
    ⟨"x", 1, ⟨1709917200000000000, UTC⟩, ⟨0, UTC⟩⟩ (by decide)).2.2.2.1 (by decide)⟩

/-- C2. Classification is a stable partition: `toCopy` and `toDelete` are subsequences of the
input in input order, together they hold every input record as often as the input does
(so the lengths add up to the input length), and both are empty for the empty input. -/
theorem classify_stable_partition (backups : List Backup) (limit : Time) :
    List.Sublist (classify backups limit).1 backups ∧
    List.Sublist (classify backups limit).2 backups ∧
    List.Perm ((classify backups limit).1 ++ (classify backups limit).2) backups ∧
    (∀ b, (classify backups limit).1.count b + (classify backups limit).2.count b
      = backups.count b) ∧
    (classify backups limit).1.length + (classify backups limit).2.length = backups.length ∧
    classify [] limit = ([], []) := by
  have hp : List.Perm ((classify backups limit).1 ++ (classify backups limit).2) backups := by
    rw [classify_eq_filter]
    exact filter_not_append_filter_perm _ _
  refine ⟨?_, ?_, hp, ?_, ?_, rfl⟩
  · rw [classify_eq_filter]; exact List.filter_sublist _
  · rw [classify_eq_filter]; exact List.filter_sublist _
  · intro b
    rw [← List.count_append]
    exact hp.count_eq b
  · rw [← List.length_append]
    exact hp.length_eq

theorem digitChar_ne_newline (d : Nat) (h : d < 10) : Nat.digitChar d ≠ '\n' := by
  interval_cases d <;> decide

theorem toDigitsCore_no_newline (fuel n : Nat) (ds : List Char) (hds : '\n' ∉ ds) :
    '\n' ∉ Nat.toDigitsCore 10 fuel n ds := by
  induction fuel generalizing n ds with
  | zero => simpa [Nat.toDigitsCore] using hds
  | succ k ih =>
    have hd : Nat.digitChar (n % 10) ≠ '\n' := digitChar_ne_newline _ (Nat.mod_lt _ (by decide))
    have hcons : '\n' ∉ Nat.digitChar (n % 10) :: ds := by
      simp only [List.mem_cons, not_or]
      exact ⟨fun h => hd h.symm, hds⟩
    unfold Nat.toDigitsCore
    by_cases h0 : n / 10 = 0
    · simpa [h0] using hcons
    · simp only [h0, if_false]
      exact ih _ _ hcons

theorem nat_toString_no_newline (n : Nat) : '\n' ∉ (toString n).data := by
  show '\n' ∉ (Nat.repr n).data
  simp only [Nat.repr, List.asString]
  exact toDigitsCore_no_newline _ _ _ (by simp)

theorem int_toString_no_newline (n : Int) : '\n' ∉ (toString n).data := by
  cases n with
  | ofNat m => exact nat_toString_no_newline m
  | negSucc m =>
    show '\n' ∉ ("-" ++ toString (m + 1)).data
    rw [String.data_append]
    simp only [List.mem_append, not_or]
    exact ⟨by decide, nat_toString_no_newline _⟩

/-! ## The report writer -/

theorem okFor_fault (w : World) (n : Nat) (h : w.okFor (n + 1)) : w.fault = Fault.ok := by
  unfold World.okFor at h
  unfold World.fault
  cases hf : w.faults with
  | nil => rfl
  | cons f fs =>
    rw [hf] at h
    simpa using h f (by simp)

theorem okFor_tail (w w1 : World) (n : Nat) (h : w.okFor (n + 1))
    (hw : w1.faults = w.faults.tail) : w1.okFor n := by
  unfold World.okFor at *
  rw [hw]
  cases hf : w.faults with
  | nil => simp
  | cons f fs =>
    rw [hf] at h
    intro x hx
    refine h x ?_
    rw [List.take_succ_cons]
    exact List.mem_cons_of_mem _ (by simpa using hx)

theorem writeLines_ok (env : Env) (f : File) (bs : List Backup) (w : World) (old : String)
    (hold : w.content f.name = some old) (hok : w.okFor bs.length) :
    writeLines env f bs w =
      (none,
       { files := fun p => if p = Clean f.name then some (old ++ render env bs) else w.files p,
         dirs := w.dirs,
         faults := w.faults.drop bs.length,
         stdout := w.stdout,
         trace := w.trace ++ bs.map (fun b => Call.writeString f.name (logLine env b)) }) := by
  induction bs generalizing w old with
  | nil =>
    have hfiles : (fun p => if p = Clean f.name then some (old ++ render env []) else w.files p)
        = w.files := by
      funext p
      by_cases hp : p = Clean f.name
      · subst hp
        simpa [render, World.content] using hold.symm
      · simp [hp]
    simp [writeLines, hfiles]
  | cons b bs ih =>
    have hfault := okFor_fault w bs.length hok
    have hstep : fileWriteString f (logLine env b) w =
        (none, (w.enter (Call.writeString f.name (logLine env b))).setFile f.name
          (some (old ++ logLine env b))) := by
      simp [fileWriteString, hfault, hold]
    have hok1 := okFor_tail w ((w.enter (Call.writeString f.name (logLine env b))).setFile f.name
          (some (old ++ logLine env b))) bs.length hok rfl
    rw [writeLines, hstep]
    simp only
    rw [ih _ (old ++ logLine env b) (by simp [World.content, World.setFile]) hok1]
    simp only [World.setFile, World.enter, Prod.mk.injEq, true_and, World.mk.injEq]
    refine ⟨?_, ?_, ?_⟩
    · funext p
      by_cases hp : p = Clean f.name
      · simp [hp, render, String.append_assoc]
      · simp [hp]
    · simp
    · simp

theorem createLog_ok (env : Env) (bs : List Backup) (logPath : String) (w : World)
    (hok : w.okFor (bs.length + 1)) :
    createLog env bs logPath w =
      (none,
       { files := fun p => if p = Clean logPath then some (render env bs) else w.files p,
         dirs := w.dirs,
         faults := w.faults.drop (bs.length + 1),
         stdout := w.stdout,
         trace := w.trace ++ Call.create logPath ::
           bs.map (fun b => Call.writeString logPath (logLine env b)) }) := by
  have hfault := okFor_fault w bs.length hok
  have hok1 := okFor_tail w ((w.enter (Call.create logPath)).setFile logPath (some ""))
    bs.length hok rfl
  simp only [createLog, osCreate, hfault]
  rw [writeLines_ok env ⟨logPath⟩ bs _ "" (by simp [World.content, World.setFile]) hok1]
  simp only [World.setFile, World.enter, Prod.mk.injEq, true_and, World.mk.injEq]
  refine ⟨?_, ?_, ?_⟩
  · funext p
    by_cases hp : p = Clean logPath
    · simp [hp]
    · simp [hp]
  · simp
  · simp

theorem createLog_writes_report_aux (env : Env) (bs : List Backup) (logPath : String)
    (w : World) (hok : w.okFor (bs.length + 1)) :
    (createLog env bs logPath w).2.content logPath = some (render env bs) := by
  rw [createLog_ok env bs logPath w hok]
  simp [World.content]

theorem lineCount_append (a b : String) : lineCount (a ++ b) = lineCount a + lineCount b := by
  simp [lineCount, String.data_append, List.count_append]

theorem lineCount_eq_zero (s : String) (h : '\n' ∉ s.data) : lineCount s = 0 := by
  simpa [lineCount] using List.count_eq_zero.mpr h

theorem lineCount_logLine (env : Env) (b : Backup) (hname : '\n' ∉ b.Nome.data)
    (hfmt : ∀ t, '\n' ∉ (env.formatRFC3339 t).data) : lineCount (logLine env b) = 1 := by
  have h1 : lineCount "Nome: " = 0 := by decide
  have h2 : lineCount " | Tamanho: " = 0 := by decide
  have h3 : lineCount " bytes | Criado: " = 0 := by decide
  have h4 : lineCount " | Última modificação: " = 0 := by decide
  have h5 : lineCount "\n" = 1 := by decide
  simp only [logLine, lineCount_append, h1, h2, h3, h4, h5, lineCount_eq_zero _ hname,
    lineCount_eq_zero _ (hfmt _), lineCount_eq_zero _ (int_toString_no_newline _)]

theorem lineCount_render (env : Env) (bs : List Backup) (hname : ∀ b ∈ bs, '\n' ∉ b.Nome.data)
    (hfmt : ∀ t, '\n' ∉ (env.formatRFC3339 t).data) : lineCount (render env bs) = bs.length := by
  induction bs with
  | nil => rfl
  | cons b bs ih =>
    rw [render, lineCount_append, lineCount_logLine env b (hname b (by simp)) hfmt,
      ih (fun x hx => hname x (by simp [hx]))]
    simp [Nat.add_comm]

/-- C3 (amended). On a sink where creating the file and every write succeed, `createLog`
returns no error and replaces the content of the sink by the lines of the records, one
`WriteString` per record in input order, each line being
`Nome: <name> | Tamanho: <size> bytes | Criado: <created> | Última modificação: <modified>`
and a newline; no other file changes. The text has as many lines as there are records
provided no record name contains a newline (timestamps rendering without one). -/
theorem createLog_writes_report (env : Env) (backups : List Backup) (logPath : String)
    (w : World) (hok : w.okFor (backups.length + 1)) :
    (createLog env backups logPath w).1 = none ∧
    (createLog env backups logPath w).2.content logPath = some (render env backups) ∧
    (∀ p, p ≠ Clean logPath → (createLog env backups logPath w).2.files p = w.files p) ∧
    (createLog env backups logPath w).2.trace = w.trace ++ Call.create logPath ::
      backups.map (fun b => Call.writeString logPath (logLine env b)) ∧
    (∀ b, logLine env b = "Nome: " ++ b.Nome ++ " | Tamanho: " ++ toString b.TamanhoBytes ++
      " bytes | Criado: " ++ env.formatRFC3339 b.DataCriacao ++ " | Última modificação: " ++
      env.formatRFC3339 b.UltimaModificacao ++ "\n") ∧
    ((∀ b ∈ backups, '\n' ∉ b.Nome.data) → (∀ t, '\n' ∉ (env.formatRFC3339 t).data) →
      lineCount (render env backups) = backups.length) := by
  rw [createLog_ok env backups logPath w hok]
  refine ⟨rfl, by simp [World.content], ?_, rfl, fun _ => rfl, lineCount_render env backups⟩
  intro p hp
  simp [hp]

/-- Witness for C3: two records written over a stale log. -/
theorem createLog_writes_report_witness :
    (worldOf [("old.log", "stale\n")] []).okFor 3 ∧
    (createLog (sampleEnv []) [⟨"a.bak", 10, jan2024 9, jan2024 10⟩,
        ⟨"b.bak", 20, jan2024 5, jan2024 10⟩] "old.log"
      (worldOf [("old.log", "stale\n")] [])).2.content "old.log" =
      some ("Nome: a.bak | Tamanho: 10 bytes | Criado: 2024-01-09T00:00:00Z" ++
        " | Última modificação: 2024-01-10T00:00:00Z\n" ++
        "Nome: b.bak | Tamanho: 20 bytes | Criado: 2024-01-05T00:00:00Z" ++
        " | Última modificação: 2024-01-10T00:00:00Z\n") :=
  ⟨by decide,
   (createLog_writes_report (sampleEnv []) [⟨"a.bak", 10, jan2024 9, jan2024 10⟩,
        ⟨"b.bak", 20, jan2024 5, jan2024 10⟩] "old.log"
      (worldOf [("old.log", "stale\n")] []) (by decide)).2.1⟩

/-- C3 (counterexample). A single record whose name contains a newline: every call succeeds,
yet the text written has two lines for one record. -/
theorem createLog_line_count_counterexample :
    (worldOf [] []).okFor 2 ∧
    (createLog (sampleEnv []) [⟨"a\nb", 10, jan2024 9, jan2024 10⟩] "out.log"
      (worldOf [] [])).1 = none ∧
    ((createLog (sampleEnv []) [⟨"a\nb", 10, jan2024 9, jan2024 10⟩] "out.log"
      (worldOf [] [])).2.content "out.log").map lineCount = some 2 ∧
    ([⟨"a\nb", 10, jan2024 9, jan2024 10⟩] : List Backup).length = 1 := by
  refine ⟨by decide, by rfl, by rfl, rfl⟩

/-! ## Start of the run and loading -/

theorem osMkdirAll_frame (path : String) (w : World) :
    (osMkdirAll path w).2.files = w.files ∧
    (osMkdirAll path w).2.stdout = w.stdout ∧
    (osMkdirAll path w).2.trace = w.trace ++ [Call.mkdirAll path] := by
  unfold osMkdirAll
  cases w.fault <;> simp [World.enter]

theorem bootstrap_frame (w : World) :
    (bootstrap w).files = w.files ∧
    (bootstrap w).stdout = w.stdout ∧
    (bootstrap w).trace = w.trace ++ [Call.mkdirAll sourceDir, Call.mkdirAll destinationDir] := by
  obtain ⟨f1, s1, t1⟩ := osMkdirAll_frame sourceDir w
  obtain ⟨f2, s2, t2⟩ := osMkdirAll_frame destinationDir (osMkdirAll sourceDir w).2
  refine ⟨?_, ?_, ?_⟩
  · rw [bootstrap, f2, f1]
  · rw [bootstrap, s2, s1]
  · rw [bootstrap, t2, t1]; simp

theorem osReadFile_world (path : String) (w : World) :
    (osReadFile path w).2 = w.enter (Call.readFile path) := by
  unfold osReadFile
  cases w.fault with
  | ok => cases w.content path <;> rfl
  | fail e n => rfl

theorem loadMock_world (env : Env) (path : String) (w : World) :
    (loadMock env path w).2 = w.enter (Call.readFile path) := by
  rw [← osReadFile_world]
  unfold loadMock
  rcases h : osReadFile path w with ⟨r, w1⟩
  cases r with
  | error e => rfl
  | ok data =>
    simp only
    cases env.unmarshal data <;> rfl

theorem main_of_load_error (env : Env) (w w3 : World) (err : GoError)
    (h : loadMock env mockFile (bootstrap w) = (Except.error err, w3)) :
    main env w = Println ["Erro ao carregar mock:", err.msg] w3 := by
  have h1 : loadMock env mockFile (osMkdirAll destinationDir (osMkdirAll sourceDir w).2).2
      = (Except.error err, w3) := h
  simp only [main, h1]

theorem println_line (a b : String) :
    String.intercalate " " [a, b] ++ "\n" = a ++ " " ++ b ++ "\n" := by
  simp [String.intercalate, String.intercalate.go, String.append_assoc]

theorem println_line3 (a b c : String) :
    String.intercalate " " [a, b, c] ++ "\n" = a ++ " " ++ b ++ " " ++ c ++ "\n" := by
  simp [String.intercalate, String.intercalate.go, String.append_assoc]

/-- C9. When `loadMock` returns an error, `main` stops there: the file store is unchanged,
the only calls made are the two `MkdirAll` and the read of the metadata file (no removal,
no copy, no log is created or written), and the diagnostic is the only line printed. -/
theorem main_aborts_on_load_error (env : Env) (w w3 : World) (err : GoError)
    (h : loadMock env mockFile (bootstrap w) = (Except.error err, w3)) :
    (main env w).files = w.files ∧
    (main env w).trace = w.trace ++
      [Call.mkdirAll sourceDir, Call.mkdirAll destinationDir, Call.readFile mockFile] ∧
    (main env w).stdout = w.stdout ++ ["Erro ao carregar mock: " ++ err.msg ++ "\n"] := by
  have hw3 : w3 = (bootstrap w).enter (Call.readFile mockFile) := by
    have := loadMock_world env mockFile (bootstrap w)
    rw [h] at this
    exact this
  obtain ⟨hf, hs, ht⟩ := bootstrap_frame w
  rw [main_of_load_error env w w3 err h, hw3]
  refine ⟨?_, ?_, ?_⟩
  · simp [Println, World.enter, hf]
  · simp [Println, World.enter, ht]
  · simp [Println, World.enter, hs, println_line]

/-- Witness for C9: the metadata file is missing. -/
theorem main_aborts_on_load_error_witness :
    loadMock (sampleEnv []) mockFile (bootstrap (worldOf [("valcann/backupsFrom/a.bak", "A")] []))
      = (Except.error (errNotExist "open" mockFile),
          (bootstrap (worldOf [("valcann/backupsFrom/a.bak", "A")] [])).enter
            (Call.readFile mockFile)) ∧
    (main (sampleEnv []) (worldOf [("valcann/backupsFrom/a.bak", "A")] [])).trace =
      [Call.mkdirAll sourceDir, Call.mkdirAll destinationDir, Call.readFile mockFile] :=
  ⟨by rfl,
   (main_aborts_on_load_error (sampleEnv []) (worldOf [("valcann/backupsFrom/a.bak", "A")] [])
      ((bootstrap (worldOf [("valcann/backupsFrom/a.bak", "A")] [])).enter
        (Call.readFile mockFile))
      (errNotExist "open" mockFile) (by rfl)).2.1⟩

/-! ## Delete phase -/

theorem head_data_append (a b : String) (c : Char) (h : a.data.head? = some c) :
    (a ++ b).data.head? = some c := by
  rw [String.data_append]
  cases ha : a.data with
  | nil => rw [ha] at h; cases h
  | cons x xs => rw [ha] at h; simpa using h

theorem deletePhase_cons (f : Backup) (l : List Backup) (w : World) :
    deletePhase (f :: l) w = deletePhase l (removeStep f w) := rfl

theorem mem_toDelete_not_mem_toCopy (backups : List Backup) (limit : Time) (f : Backup)
    (h : f ∈ (classify backups limit).2) : f ∉ (classify backups limit).1 := by
  rw [classify_eq_filter] at *
  simp only [List.mem_filter] at *
  intro hc
  simp [h.2] at hc

theorem osRemove_trace (path : String) (w : World) :
    (osRemove path w).2.trace = w.trace ++ [Call.remove path] := by
  unfold osRemove
  cases w.fault with
  | ok => cases w.content path <;> rfl
  | fail e n => rfl

theorem osOpen_world (path : String) (w : World) :
    (osOpen path w).2 = w.enter (Call.openFile path) := by
  unfold osOpen
  cases w.fault with
  | ok => cases w.content path <;> rfl
  | fail e n => rfl

theorem osCreate_frame (path : String) (w : World) :
    (osCreate path w).2.trace = w.trace ++ [Call.create path] ∧
    (osCreate path w).2.stdout = w.stdout := by
  unfold osCreate
  cases w.fault <;> exact ⟨rfl, rfl⟩

theorem ioCopy_frame (dst src : File) (w : World) :
    (ioCopy dst src w).2.trace = w.trace ++ [Call.copy dst.name src.name] ∧
    (ioCopy dst src w).2.stdout = w.stdout := by
  unfold ioCopy
  cases w.fault <;> exact ⟨rfl, rfl⟩

theorem fileWriteString_frame (f : File) (s : String) (w : World) :
    (fileWriteString f s w).2.trace = w.trace ++ [Call.writeString f.name s] ∧
    (fileWriteString f s w).2.stdout = w.stdout := by
  unfold fileWriteString
  cases w.fault <;> exact ⟨rfl, rfl⟩

theorem osCreate_file (path : String) (w : World) (f : File) (w1 : World)
    (h : osCreate path w = (Except.ok f, w1)) : f = ⟨path⟩ := by
  unfold osCreate at h
  cases hf : w.fault with
  | ok => rw [hf] at h; simp only [Prod.mk.injEq, Except.ok.injEq] at h; exact h.1.symm
  | fail e n => rw [hf] at h; simp at h

theorem osOpen_file (path : String) (w : World) (f : File) (w1 : World)
    (h : osOpen path w = (Except.ok f, w1)) : f = ⟨path⟩ := by
  unfold osOpen at h
  cases hf : w.fault with
  | ok =>
    rw [hf] at h
    cases hc : w.content path with
    | none => rw [hc] at h; simp at h
    | some c => rw [hc] at h; simp only [Prod.mk.injEq, Except.ok.injEq] at h; exact h.1.symm
  | fail e n => rw [hf] at h; simp at h

theorem removeStep_trace (f : Backup) (w : World) :
    (removeStep f w).trace = w.trace ++ [Call.remove (srcPath f)] := by
  have ht := osRemove_trace (Join sourceDir f.Nome) w
  unfold removeStep
  rcases hr : osRemove (Join sourceDir f.Nome) w with ⟨r, w1⟩
  rw [hr] at ht
  cases r with
  | none => exact ht
  | some e => cases hne : e.isNotExist <;> simpa [Println, hne] using ht

theorem deletePhase_trace (l : List Backup) (w : World) :
    (deletePhase l w).trace = w.trace ++ l.map (fun f => Call.remove (srcPath f)) := by
  induction l generalizing w with
  | nil => simp [deletePhase]
  | cons f fs ih => rw [deletePhase_cons, ih, removeStep_trace]; simp

theorem copyFile_frame (src dst : String) (w : World) :
    (copyFile src dst w).2.stdout = w.stdout ∧
    ∃ t, (copyFile src dst w).2.trace = w.trace ++ Call.openFile src :: t ∧
      ∀ c ∈ t, c = Call.create dst ∨ c = Call.copy dst src := by
  have ho := osOpen_world src w
  rcases h1 : osOpen src w with ⟨r1, w1⟩
  rw [h1] at ho
  simp only at ho
  subst ho
  cases r1 with
  | error e =>
    simp only [copyFile, h1]
    exact ⟨rfl, [], rfl, by simp⟩
  | ok sf =>
    have hsf := osOpen_file src w sf _ h1
    subst hsf
    have hc := osCreate_frame dst (w.enter (Call.openFile src))
    rcases h2 : osCreate dst (w.enter (Call.openFile src)) with ⟨r2, w2⟩
    rw [h2] at hc
    simp only at hc
    cases r2 with
    | error e =>
      simp only [copyFile, h1, h2]
      exact ⟨hc.2, [Call.create dst], by simp [hc.1, World.enter], by simp⟩
    | ok df =>
      have hdf := osCreate_file dst _ df w2 h2
      subst hdf
      have hi := ioCopy_frame ⟨dst⟩ ⟨src⟩ w2
      simp only [copyFile, h1, h2]
      refine ⟨by rw [hi.2, hc.2]; rfl, [Call.create dst, Call.copy dst src], ?_, by simp⟩
      rw [hi.1, hc.1]
      simp [World.enter]

theorem copyStep_frame (f : Backup) (w : World) :
    ∃ t, (copyStep f w).trace = w.trace ++ Call.openFile (srcPath f) :: t ∧
      ∀ c ∈ t, c = Call.create (dstPath f) ∨ c = Call.copy (dstPath f) (srcPath f) := by
  obtain ⟨_, t, ht, hall⟩ := copyFile_frame (Join sourceDir f.Nome) (Join destinationDir f.Nome) w
  refine ⟨t, ?_, hall⟩
  unfold copyStep
  rcases hr : copyFile (Join sourceDir f.Nome) (Join destinationDir f.Nome) w with ⟨r, w1⟩
  rw [hr] at ht
  cases r <;> exact ht

theorem copyPhase_cons (f : Backup) (l : List Backup) (w : World) :
    copyPhase (f :: l) w = copyPhase l (copyStep f w) := rfl

theorem copyPhase_append (l1 l2 : List Backup) (w : World) :
    copyPhase (l1 ++ l2) w = copyPhase l2 (copyPhase l1 w) := by
  simp [copyPhase, List.foldl_append]

theorem copyPhase_trace (l : List Backup) (w : World) :
    ∃ t, (copyPhase l w).trace = w.trace ++ t ∧
      (∀ b ∈ l, Call.openFile (srcPath b) ∈ t) ∧
      (∀ c ∈ t, ∃ b ∈ l, c = Call.openFile (srcPath b) ∨ c = Call.create (dstPath b) ∨
        c = Call.copy (dstPath b) (srcPath b)) := by
  induction l generalizing w with
  | nil => exact ⟨[], by simp [copyPhase], by simp, by simp⟩
  | cons f fs ih =>
    obtain ⟨t1, ht1, hall1⟩ := copyStep_frame f w
    obtain ⟨t2, ht2, hmem2, hall2⟩ := ih (copyStep f w)
    refine ⟨Call.openFile (srcPath f) :: t1 ++ t2, ?_, ?_, ?_⟩
    · rw [copyPhase_cons, ht2, ht1]; simp
    · intro b hb
      rcases List.mem_cons.mp hb with rfl | hb
      · simp
      · have := hmem2 b hb
        simp [this]
    · intro c hc
      simp only [List.cons_append, List.mem_cons, List.mem_append] at hc
      rcases hc with rfl | hc | hc
      · exact ⟨f, by simp, Or.inl rfl⟩
      · rcases hall1 c hc with h | h
        · exact ⟨f, by simp, Or.inr (Or.inl h)⟩
        · exact ⟨f, by simp, Or.inr (Or.inr h)⟩
      · obtain ⟨b, hb, h⟩ := hall2 c hc
        exact ⟨b, by simp [hb], h⟩

theorem writeLines_frame (env : Env) (f : File) (bs : List Backup) (w : World) :
    (writeLines env f bs w).2.stdout = w.stdout ∧
    ∃ t, (writeLines env f bs w).2.trace = w.trace ++ t ∧
      ∀ c ∈ t, ∃ s, c = Call.writeString f.name s := by
  induction bs generalizing w with
  | nil => exact ⟨rfl, [], by simp [writeLines], by simp⟩
  | cons b bs ih =>
    have hw := fileWriteString_frame f (logLine env b) w
    unfold writeLines
    rcases hr : fileWriteString f (logLine env b) w with ⟨r, w1⟩
    rw [hr] at hw
    simp only at hw
    cases r with
    | some e => exact ⟨hw.2, [Call.writeString f.name (logLine env b)], hw.1, by simp⟩
    | none =>
      obtain ⟨hs, t, ht, hall⟩ := ih w1
      refine ⟨by simpa [hw.2] using hs, Call.writeString f.name (logLine env b) :: t, ?_, ?_⟩
      · simp only
        rw [ht, hw.1]; simp
      · intro c hc
        rcases List.mem_cons.mp hc with rfl | hc
        · exact ⟨_, rfl⟩
        · exact hall c hc

theorem createLog_frame (env : Env) (bs : List Backup) (logPath : String) (w : World) :
    (createLog env bs logPath w).2.stdout = w.stdout ∧
    ∃ t, (createLog env bs logPath w).2.trace = w.trace ++ Call.create logPath :: t ∧
      ∀ c ∈ t, ∃ s, c = Call.writeString logPath s := by
  have hc := osCreate_frame logPath w
  unfold createLog
  rcases h1 : osCreate logPath w with ⟨r1, w1⟩
  rw [h1] at hc
  simp only at hc
  cases r1 with
  | error e => exact ⟨hc.2, [], by simpa using hc.1, by simp⟩
  | ok f =>
    have hf := osCreate_file logPath w f w1 h1
    subst hf
    obtain ⟨hs, t, ht, hall⟩ := writeLines_frame env ⟨logPath⟩ bs w1
    refine ⟨by simpa [hc.2] using hs, t, ?_, hall⟩
    simp only
    rw [ht, hc.1]; simp

/-! ## The run as a whole -/

theorem main_of_load_ok_log_error (env : Env) (w w3 w4 : World) (backups : List Backup)
    (err : GoError) (h : loadMock env mockFile (bootstrap w) = (Except.ok backups, w3))
    (h2 : createLog env backups logFrom w3 = (some err, w4)) :
    main env w = Println ["Erro ao criar log de origem:", err.msg] w4 := by
  have h1 : loadMock env mockFile (osMkdirAll destinationDir (osMkdirAll sourceDir w).2).2
      = (Except.ok backups, w3) := h
  simp only [main, h1, h2]

theorem main_of_load_ok_log_ok (env : Env) (w w3 w4 : World) (backups : List Backup)
    (h : loadMock env mockFile (bootstrap w) = (Except.ok backups, w3))
    (h2 : createLog env backups logFrom w3 = (none, w4)) :
    main env w = process env backups w4 := by
  have h1 : loadMock env mockFile (osMkdirAll destinationDir (osMkdirAll sourceDir w).2).2
      = (Except.ok backups, w3) := h
  simp only [main, h1, h2]

theorem process_eq (env : Env) (backups : List Backup) (w : World) :
    process env backups w =
      match createLog env (plan env backups).1 logTo (afterPhases env backups w) with
      | (some err, w3) => Println ["Erro ao criar log de destino:", err.msg] w3
      | (none, w3) => Println ["Processo concluído com sucesso!"] w3 := rfl

theorem erro_ne_successMsg (x : String) : "Erro ao " ++ x ≠ successMsg := by
  intro h
  have h1 := head_data_append "Erro ao " x 'E' rfl
  rw [h] at h1
  exact absurd h1 (by decide)

theorem println_error_last (label msg : String) (w : World) :
    (Println ["Erro ao " ++ label, msg] w).stdout.getLast? ≠ some successMsg := by
  have hne := erro_ne_successMsg (label ++ " " ++ msg ++ "\n")
  simp only [String.append_assoc] at hne
  simp [Println, println_line, String.append_assoc, hne]

theorem println_success_last (w : World) :
    (Println ["Processo concluído com sucesso!"] w).stdout.getLast? = some successMsg := by
  have h : String.intercalate " " ["Processo concluído com sucesso!"] ++ "\n" = successMsg := by
    decide
  simp [Println, h]

theorem process_done_iff (env : Env) (backups : List Backup) (w : World) :
    (process env backups w).stdout.getLast? = some successMsg ↔
      (createLog env (plan env backups).1 logTo (afterPhases env backups w)).1 = none := by
  rw [process_eq]
  rcases hr : createLog env (plan env backups).1 logTo (afterPhases env backups w) with ⟨r, w3⟩
  cases r with
  | none => simpa using println_success_last w3
  | some e => simpa using println_error_last "criar log de destino:" e.msg w3

theorem process_trace (env : Env) (backups : List Backup) (w : World) :
    ∃ tc tl, (process env backups w).trace =
        w.trace ++ (plan env backups).2.map (fun f => Call.remove (srcPath f)) ++ tc ++
          Call.create logTo :: tl ∧
      (∀ b ∈ (plan env backups).1, Call.openFile (srcPath b) ∈ tc) ∧
      (∀ c ∈ tc, ∃ b ∈ (plan env backups).1, c = Call.openFile (srcPath b) ∨
        c = Call.create (dstPath b) ∨ c = Call.copy (dstPath b) (srcPath b)) ∧
      (∀ c ∈ tl, ∃ s, c = Call.writeString logTo s) := by
  obtain ⟨tc, htc, hmem, hall⟩ :=
    copyPhase_trace (plan env backups).1 (deletePhase (plan env backups).2 w)
  obtain ⟨_, tl, htl, hwr⟩ :=
    createLog_frame env (plan env backups).1 logTo (afterPhases env backups w)
  refine ⟨tc, tl, ?_, hmem, hall, hwr⟩
  have hfin : (process env backups w).trace =
      (createLog env (plan env backups).1 logTo (afterPhases env backups w)).2.trace := by
    rw [process_eq]
    rcases hr : createLog env (plan env backups).1 logTo (afterPhases env backups w) with ⟨r, w3⟩
    cases r <;> rfl
  rw [hfin, htl, afterPhases, htc, deletePhase_trace]

/-- C6. The run prints the success message last exactly when loading the metadata, writing
the full-set log and writing the copied-set log all succeed, whatever the removals and
copies returned. Once the metadata has loaded and the full-set log is written, the calls
that follow are: one removal per `toDelete` record in order, then the calls of the copy
phase, among them an `Open` of the source of every `toCopy` record, then the creation of
the copied-set log and its writes. -/
theorem main_done_iff_fatal_steps_succeed (env : Env) (w : World) :
    ((main env w).stdout.getLast? = some successMsg ↔
      ∃ backups w3 w4, loadMock env mockFile (bootstrap w) = (Except.ok backups, w3) ∧
        createLog env backups logFrom w3 = (none, w4) ∧
        (createLog env (plan env backups).1 logTo (afterPhases env backups w4)).1 = none) ∧
    (∀ backups w3 w4, loadMock env mockFile (bootstrap w) = (Except.ok backups, w3) →
      createLog env backups logFrom w3 = (none, w4) →
      ∃ tc tl, (main env w).trace =
          w4.trace ++ (plan env backups).2.map (fun f => Call.remove (srcPath f)) ++ tc ++
            Call.create logTo :: tl ∧
        (∀ b ∈ (plan env backups).1, Call.openFile (srcPath b) ∈ tc) ∧
        (∀ c ∈ tc, ∃ b ∈ (plan env backups).1, c = Call.openFile (srcPath b) ∨
          c = Call.create (dstPath b) ∨ c = Call.copy (dstPath b) (srcPath b)) ∧
        (∀ c ∈ tl, ∃ s, c = Call.writeString logTo s)) := by
  constructor
  · rcases hl : loadMock env mockFile (bootstrap w) with ⟨r, w3⟩
    cases r with
    | error e =>
      rw [main_of_load_error env w w3 e hl]
      constructor
      · intro h
        exact absurd h (println_error_last "carregar mock:" e.msg w3)
      · rintro ⟨backups, w3', w4, h, _⟩
        simp at h
    | ok backups =>
      rcases hc : createLog env backups logFrom w3 with ⟨r2, w4⟩
      cases r2 with
      | some e =>
        rw [main_of_load_ok_log_error env w w3 w4 backups e hl hc]
        constructor
        · intro h
          exact absurd h (println_error_last "criar log de origem:" e.msg w4)
        · rintro ⟨backups', w3', w4', h, h2, _⟩
          simp only [Prod.mk.injEq, Except.ok.injEq] at h
          obtain ⟨rfl, rfl⟩ := h
          rw [hc] at h2
          simp at h2
      | none =>
        rw [main_of_load_ok_log_ok env w w3 w4 backups hl hc, process_done_iff]
        constructor
        · intro h
          exact ⟨backups, w3, w4, rfl, hc, h⟩
        · rintro ⟨backups', w3', w4', h, h2, h3⟩
          simp only [Prod.mk.injEq, Except.ok.injEq] at h
          obtain ⟨rfl, rfl⟩ := h
          rw [hc] at h2
          simp only [Prod.mk.injEq, true_and] at h2
          subst h2
          exact h3
  · intro backups w3 w4 hl hc
    rw [main_of_load_ok_log_ok env w w3 w4 backups hl hc]
    exact process_trace env backups w4

/-! ## Targets of the two phases -/

theorem main_trace_cases (env : Env) (w : World) (htrace : w.trace = []) (c : Call)
    (hc : c ∈ (main env w).trace) :
    (c = Call.mkdirAll sourceDir ∨ c = Call.mkdirAll destinationDir ∨
      c = Call.readFile mockFile ∨ c = Call.create logFrom ∨ c = Call.create logTo ∨
      (∃ p s, c = Call.writeString p s)) ∨
    ∃ backups w3, loadMock env mockFile (bootstrap w) = (Except.ok backups, w3) ∧
      ((∃ b ∈ (plan env backups).2, c = Call.remove (srcPath b)) ∨
       (∃ b ∈ (plan env backups).1, c = Call.openFile (srcPath b) ∨
          c = Call.create (dstPath b) ∨ c = Call.copy (dstPath b) (srcPath b))) := by
  have hb := (bootstrap_frame w).2.2
  rw [htrace, List.nil_append] at hb
  rcases hl : loadMock env mockFile (bootstrap w) with ⟨r, w3⟩
  have hw3 : w3.trace = [Call.mkdirAll sourceDir, Call.mkdirAll destinationDir,
      Call.readFile mockFile] := by
    have := loadMock_world env mockFile (bootstrap w)
    rw [hl] at this
    simp only at this
    rw [this]
    simp [World.enter, hb]
  cases r with
  | error e =>
    rw [main_of_load_error env w w3 e hl] at hc
    have : c ∈ w3.trace := hc
    rw [hw3] at this
    simp only [List.mem_cons, List.mem_singleton, List.not_mem_nil, or_false] at this
    rcases this with h | h | h <;> simp [h]
  | ok backups =>
    obtain ⟨_, tl1, htl1, hwr1⟩ := createLog_frame env backups logFrom w3
    rcases hcl : createLog env backups logFrom w3 with ⟨r2, w4⟩
    rw [hcl] at htl1
    simp only at htl1
    have hw4 : ∀ x ∈ w4.trace, x = Call.mkdirAll sourceDir ∨ x = Call.mkdirAll destinationDir ∨
        x = Call.readFile mockFile ∨ x = Call.create logFrom ∨
        (∃ p s, x = Call.writeString p s) := by
      intro x hx
      rw [htl1, hw3] at hx
      simp only [List.cons_append, List.nil_append, List.mem_cons] at hx
      rcases hx with h | h | h | h | h
      · simp [h]
      · simp [h]
      · simp [h]
      · simp [h]
      · obtain ⟨s, hs⟩ := hwr1 x h
        exact Or.inr (Or.inr (Or.inr (Or.inr ⟨logFrom, s, hs⟩)))
    cases r2 with
    | some e =>
      rw [main_of_load_ok_log_error env w w3 w4 backups e hl hcl] at hc
      have : c ∈ w4.trace := hc
      rcases hw4 c this with h | h | h | h | h
      · simp [h]
      · simp [h]
      · simp [h]
      · simp [h]
      · exact Or.inl (Or.inr (Or.inr (Or.inr (Or.inr (Or.inr h)))))
    | none =>
      rw [main_of_load_ok_log_ok env w w3 w4 backups hl hcl] at hc
      obtain ⟨tc, tl, ht, _, hall, hwr⟩ := process_trace env backups w4
      rw [ht] at hc
      simp only [List.mem_append, List.mem_cons, List.mem_map] at hc
      rcases hc with ((h | ⟨b, hb, h⟩) | h) | h | h
      · rcases hw4 c h with h | h | h | h | h
        · simp [h]
        · simp [h]
        · simp [h]
        · simp [h]
        · exact Or.inl (Or.inr (Or.inr (Or.inr (Or.inr (Or.inr h)))))
      · exact Or.inr ⟨backups, w3, rfl, Or.inl ⟨b, hb, h.symm⟩⟩
      · exact Or.inr ⟨backups, w3, rfl, Or.inr (hall c h)⟩
      · simp [h]
      · obtain ⟨s, hs⟩ := hwr c h
        exact Or.inl (Or.inr (Or.inr (Or.inr (Or.inr (Or.inr ⟨logTo, s, hs⟩)))))

/-- C7 (amended). In a run whose metadata records have pairwise distinct source paths
`filepath.Join(sourceDir, name)`, no path the delete phase removes is a path the copy phase
opens for copying, and no name is shared between `toDelete` and `toCopy`. -/
theorem delete_and_copy_targets_disjoint (env : Env) (w w3 : World) (backups : List Backup)
    (htrace : w.trace = [])
    (hl : loadMock env mockFile (bootstrap w) = (Except.ok backups, w3))
    (hnodup : (backups.map srcPath).Nodup) :
    (∀ p, Call.remove p ∈ (main env w).trace → Call.openFile p ∉ (main env w).trace) ∧
    (∀ d ∈ (plan env backups).2, ∀ c ∈ (plan env backups).1, d.Nome ≠ c.Nome) := by
  have hsub1 : ∀ x ∈ (plan env backups).1, x ∈ backups := by
    intro x hx
    rw [plan, classify_eq_filter] at hx
    exact (List.mem_filter.mp hx).1
  have hsub2 : ∀ x ∈ (plan env backups).2, x ∈ backups := by
    intro x hx
    rw [plan, classify_eq_filter] at hx
    exact (List.mem_filter.mp hx).1
  have hkey : ∀ d ∈ (plan env backups).2, ∀ c ∈ (plan env backups).1,
      srcPath d ≠ srcPath c := by
    intro d hd c hc heq
    have hdc : d = c := List.inj_on_of_nodup_map hnodup (hsub2 d hd) (hsub1 c hc) heq
    subst hdc
    exact mem_toDelete_not_mem_toCopy backups _ d hd hc
  constructor
  · intro p hr ho
    rcases main_trace_cases env w htrace _ hr with h | ⟨bs, w3', hl', h⟩
    · rcases h with h | h | h | h | h | ⟨q, s, h⟩ <;> cases h
    · rw [hl] at hl'
      simp only [Prod.mk.injEq, Except.ok.injEq] at hl'
      obtain ⟨rfl, rfl⟩ := hl'
      rcases h with ⟨d, hd, h⟩ | ⟨c, _, h⟩
      · cases h
        rcases main_trace_cases env w htrace _ ho with h | ⟨bs, w3', hl', h⟩
        · rcases h with h | h | h | h | h | ⟨q, s, h⟩ <;> cases h
        · rw [hl] at hl'
          simp only [Prod.mk.injEq, Except.ok.injEq] at hl'
          obtain ⟨rfl, rfl⟩ := hl'
          rcases h with ⟨d', _, h⟩ | ⟨c, hc, h⟩
          · cases h
          · rcases h with h | h | h
            · simp only [Call.openFile.injEq] at h
              exact hkey d hd c hc h
            · cases h
            · cases h
      · rcases h with h | h | h <;> cases h
  · intro d hd c hc hname
    exact hkey d hd c hc (by simp [srcPath, hname])

/-! ## The copied-set log -/

theorem writeLines_none_okFor (env : Env) (f : File) (bs : List Backup) (w : World)
    (h : (writeLines env f bs w).1 = none) : w.okFor bs.length := by
  induction bs generalizing w with
  | nil => intro x hx; simp at hx
  | cons b bs ih =>
    unfold writeLines at h
    cases hf : w.faults with
    | nil => intro x hx; simp [hf] at hx
    | cons x xs =>
      cases x with
      | fail e n => simp [fileWriteString, World.fault, hf] at h
      | ok =>
        have hstep : fileWriteString f (logLine env b) w =
            (none, (w.enter (Call.writeString f.name (logLine env b))).setFile f.name
              (some ((w.content f.name).getD "" ++ logLine env b))) := by
          simp [fileWriteString, World.fault, hf]
        rw [hstep] at h
        have := ih _ h
        intro y hy
        rw [hf, List.length_cons, List.take_succ_cons] at hy
        rcases List.mem_cons.mp hy with rfl | hy
        · rfl
        · exact this y (by simpa [World.setFile, World.enter, hf] using hy)

theorem createLog_none_okFor (env : Env) (bs : List Backup) (logPath : String) (w : World)
    (h : (createLog env bs logPath w).1 = none) : w.okFor (bs.length + 1) := by
  unfold createLog osCreate at h
  cases hf : w.faults with
  | nil => intro x hx; simp [hf] at hx
  | cons x xs =>
    cases x with
    | fail e n => simp [World.fault, hf] at h
    | ok =>
      simp only [World.fault, hf, List.headD_cons] at h
      have := writeLines_none_okFor env _ bs _ h
      intro y hy
      rw [hf, List.take_succ_cons] at hy
      rcases List.mem_cons.mp hy with rfl | hy
      · rfl
      · exact this y (by simpa [World.setFile, World.enter, hf] using hy)

theorem createLog_none_content (env : Env) (bs : List Backup) (logPath : String) (w : World)
    (h : (createLog env bs logPath w).1 = none) :
    (createLog env bs logPath w).2.content logPath = some (render env bs) :=
  (createLog_writes_report_aux env bs logPath w (createLog_none_okFor env bs logPath w h))

theorem process_files (env : Env) (backups : List Backup) (w : World) :
    (process env backups w).files =
      (createLog env (plan env backups).1 logTo (afterPhases env backups w)).2.files := by
  rw [process_eq]
  rcases hr : createLog env (plan env backups).1 logTo (afterPhases env backups w) with ⟨r, w3⟩
  cases r <;> rfl

theorem process_log_content (env : Env) (backups : List Backup) (w : World)
    (h : (process env backups w).stdout.getLast? = some successMsg) :
    (process env backups w).content logTo = some (render env (plan env backups).1) := by
  have hnone := (process_done_iff env backups w).mp h
  have := createLog_none_content env _ logTo _ hnone
  unfold World.content at *
  rw [process_files]
  exact this

/-- C4. After the metadata has loaded and the full-set log is written, the file store `main`
leaves is the one `createLog` leaves when applied to `toCopy` and `logTo` in the world
reached after the two phases; whenever the run completes, the copied-set log holds exactly
the lines of `toCopy`, so two completed runs on the same metadata have the same copied-set
log whatever their removals and copies returned. -/
theorem copied_log_is_report_of_toCopy (env : Env) (w w3 w4 : World) (backups : List Backup)
    (hl : loadMock env mockFile (bootstrap w) = (Except.ok backups, w3))
    (hc : createLog env backups logFrom w3 = (none, w4)) :
    (main env w).files =
      (createLog env (plan env backups).1 logTo (afterPhases env backups w4)).2.files ∧
    ((main env w).stdout.getLast? = some successMsg →
      (main env w).content logTo = some (render env (plan env backups).1)) ∧
    (∀ u u3 u4, loadMock env mockFile (bootstrap u) = (Except.ok backups, u3) →
      createLog env backups logFrom u3 = (none, u4) →
      (main env w).stdout.getLast? = some successMsg →
      (main env u).stdout.getLast? = some successMsg →
      (main env u).content logTo = (main env w).content logTo) := by
  have hm := main_of_load_ok_log_ok env w w3 w4 backups hl hc
  refine ⟨?_, ?_, ?_⟩
  · rw [hm, process_files]
  · rw [hm]; exact process_log_content env backups w4
  · intro u u3 u4 hlu hcu hw hu
    have hmu := main_of_load_ok_log_ok env u u3 u4 backups hlu hcu
    rw [hm] at hw
    rw [hmu] at hu
    rw [hm, hmu, process_log_content env backups w4 hw, process_log_content env backups u4 hu]

/-! ## Copy phase -/

theorem copyStep_stdout (f : Backup) (w : World) :
    (copyStep f w).stdout = w.stdout ++
      [match (copyFile (srcPath f) (dstPath f) w).1 with
        | some e => "Erro ao copiar: " ++ f.Nome ++ " " ++ e.msg ++ "\n"
        | none => "Copiado: " ++ f.Nome ++ "\n"] := by
  have hs := (copyFile_frame (srcPath f) (dstPath f) w).1
  unfold copyStep
  rw [show Join sourceDir f.Nome = srcPath f from rfl,
    show Join destinationDir f.Nome = dstPath f from rfl]
  rcases hr : copyFile (srcPath f) (dstPath f) w with ⟨r, w1⟩
  rw [hr] at hs
  simp only at hs
  cases r with
  | none => simp [Println, hs, println_line]
  | some e => simp [Println, hs, println_line3]

theorem copyPhase_stdout_mono (l : List Backup) (w : World) (x : String) (hx : x ∈ w.stdout) :
    x ∈ (copyPhase l w).stdout := by
  induction l generalizing w with
  | nil => exact hx
  | cons f fs ih =>
    rw [copyPhase_cons]
    apply ih
    rw [copyStep_stdout]
    exact List.mem_append_left _ hx

theorem process_stdout_mono (env : Env) (backups : List Backup) (w : World) (x : String)
    (hx : x ∈ (afterPhases env backups w).stdout) : x ∈ (process env backups w).stdout := by
  have hs := (createLog_frame env (plan env backups).1 logTo (afterPhases env backups w)).1
  rw [process_eq]
  rcases hr : createLog env (plan env backups).1 logTo (afterPhases env backups w) with ⟨r, w3⟩
  rw [hr] at hs
  simp only at hs
  cases r <;> simp [Println, hs, hx]

theorem render_append (env : Env) (l1 l2 : List Backup) :
    render env (l1 ++ l2) = render env l1 ++ render env l2 := by
  induction l1 with
  | nil => simp [render]
  | cons b bs ih => simp [render, ih, String.append_assoc]

theorem erro_ne_copiado (x y : String) : "Erro ao copiar: " ++ x ≠ "Copiado: " ++ y := by
  intro h
  have h1 := head_data_append "Erro ao copiar: " x 'E' rfl
  have h2 := head_data_append "Copiado: " y 'C' rfl
  rw [h, h2] at h1
  exact absurd h1 (by decide)

/-- C5 (amended). For a record `f` of `toCopy` whose copy fails with `err`: the line printed
for it is `Erro ao copiar: <name> <err>`, not `Copiado: <name>`; the loop goes on with the
remaining records and the diagnostic is part of the output of the run; the record is
nevertheless in the copied-set log: when the run completes, that log holds the line of `f`
between the lines of the records before and after it in `toCopy`. -/
theorem copy_failure_reported_and_still_logged (env : Env) (w w3 w4 : World)
    (backups pre post : List Backup) (f : Backup) (err : GoError)
    (hl : loadMock env mockFile (bootstrap w) = (Except.ok backups, w3))
    (hc : createLog env backups logFrom w3 = (none, w4))
    (hsplit : (plan env backups).1 = pre ++ f :: post)
    (hfail : (copyFile (srcPath f) (dstPath f)
      (copyPhase pre (deletePhase (plan env backups).2 w4))).1 = some err) :
    (copyStep f (copyPhase pre (deletePhase (plan env backups).2 w4))).stdout =
      (copyPhase pre (deletePhase (plan env backups).2 w4)).stdout ++
        ["Erro ao copiar: " ++ f.Nome ++ " " ++ err.msg ++ "\n"] ∧
    "Erro ao copiar: " ++ f.Nome ++ " " ++ err.msg ++ "\n" ≠ "Copiado: " ++ f.Nome ++ "\n" ∧
    afterPhases env backups w4 =
      copyPhase post (copyStep f (copyPhase pre (deletePhase (plan env backups).2 w4))) ∧
    "Erro ao copiar: " ++ f.Nome ++ " " ++ err.msg ++ "\n" ∈ (main env w).stdout ∧
    ((main env w).stdout.getLast? = some successMsg →
      (main env w).content logTo =
        some (render env pre ++ logLine env f ++ render env post)) := by
  have hm := main_of_load_ok_log_ok env w w3 w4 backups hl hc
  have hstep := copyStep_stdout f (copyPhase pre (deletePhase (plan env backups).2 w4))
  rw [hfail] at hstep
  simp only at hstep
  have hafter : afterPhases env backups w4 =
      copyPhase post (copyStep f (copyPhase pre (deletePhase (plan env backups).2 w4))) := by
    rw [afterPhases, hsplit, copyPhase_append, copyPhase_cons]
  refine ⟨hstep, ?_, hafter, ?_, ?_⟩
  · simpa [String.append_assoc] using
      erro_ne_copiado (f.Nome ++ " " ++ err.msg ++ "\n") (f.Nome ++ "\n")
  · rw [hm]
    apply process_stdout_mono
    rw [hafter]
    apply copyPhase_stdout_mono
    rw [hstep]
    simp
  · intro hdone
    rw [hm] at hdone ⊢
    rw [process_log_content env backups w4 hdone, hsplit, render_append, render,
      String.append_assoc]

/-! ## Runs without failures -/

theorem quiet_fault (w : World) (h : w.quiet) : w.fault = Fault.ok := by
  unfold World.fault
  cases hf : w.faults with
  | nil => rfl
  | cons f fs => exact h f (by simp [hf])

theorem quiet_of_faults_suffix (w u : World) (n : Nat) (h : w.quiet)
    (hu : u.faults = w.faults.drop n) : u.quiet := by
  intro f hf
  rw [hu] at hf
  exact h f (List.mem_of_mem_drop hf)

theorem quiet_okFor (w : World) (n : Nat) (h : w.quiet) : w.okFor n :=
  fun f hf => h f (List.mem_of_mem_take hf)

theorem quiet_enter (w : World) (c : Call) (h : w.quiet) : (w.enter c).quiet :=
  quiet_of_faults_suffix w _ 1 h (by simp [World.enter])

theorem quiet_setFile (w : World) (p : String) (v : Option String) (h : w.quiet) :
    (w.setFile p v).quiet := h

theorem quiet_Println (w : World) (args : List String) (h : w.quiet) :
    (Println args w).quiet := h

theorem osMkdirAll_quiet (path : String) (w : World) (h : w.quiet) :
    (osMkdirAll path w).2.quiet := by
  unfold osMkdirAll
  rw [quiet_fault w h]
  exact quiet_enter w (Call.mkdirAll path) h

theorem bootstrap_quiet (w : World) (h : w.quiet) : (bootstrap w).quiet :=
  osMkdirAll_quiet _ _ (osMkdirAll_quiet _ _ h)

theorem loadMock_ok (env : Env) (path data : String) (bs : List Backup) (w : World)
    (h : w.quiet) (hdata : w.content path = some data)
    (hparse : env.unmarshal data = Except.ok bs) :
    loadMock env path w = (Except.ok bs, w.enter (Call.readFile path)) := by
  simp [loadMock, osReadFile, quiet_fault w h, hdata, hparse]

theorem osRemove_ok (p c : String) (w : World) (h : w.quiet) (hc : w.content p = some c) :
    osRemove p w = (none, (w.enter (Call.remove p)).setFile p none) := by
  simp [osRemove, quiet_fault w h, hc]

theorem osOpen_ok (p c : String) (w : World) (h : w.quiet) (hc : w.content p = some c) :
    osOpen p w = (Except.ok ⟨p⟩, w.enter (Call.openFile p)) := by
  simp [osOpen, quiet_fault w h, hc]

theorem osCreate_ok (p : String) (w : World) (h : w.quiet) :
    osCreate p w = (Except.ok ⟨p⟩, (w.enter (Call.create p)).setFile p (some "")) := by
  simp [osCreate, quiet_fault w h]

theorem ioCopy_ok (d s old data : String) (w : World) (h : w.quiet)
    (hold : w.content d = some old) (hdata : w.content s = some data) :
    ioCopy ⟨d⟩ ⟨s⟩ w = (none, (w.enter (Call.copy d s)).setFile d (some (old ++ data))) := by
  simp [ioCopy, quiet_fault w h, hold, hdata]

theorem content_setFile (w : World) (p q : String) (v : Option String) :
    (w.setFile p v).content q = if Clean q = Clean p then v else w.content q := rfl

theorem content_enter (w : World) (c : Call) (q : String) :
    (w.enter c).content q = w.content q := rfl

theorem content_Println (w : World) (args : List String) (q : String) :
    (Println args w).content q = w.content q := rfl

theorem copyFile_ok (s d c : String) (w : World) (h : w.quiet)
    (hc : w.content s = some c) (hne : Clean s ≠ Clean d) :
    copyFile s d w =
      (none, ((((w.enter (Call.openFile s)).enter (Call.create d)).setFile d (some "")).enter
          (Call.copy d s)).setFile d (some c)) := by
  have q1 := quiet_enter w (Call.openFile s) h
  have q2 := quiet_setFile _ d (some "") (quiet_enter _ (Call.create d) q1)
  rw [copyFile, osOpen_ok s c w h hc]
  simp only
  rw [osCreate_ok d _ q1]
  simp only
  rw [ioCopy_ok d s "" c _ q2 (by simp [content_setFile])
    (by simp [content_setFile, content_enter, hne, hc])]
  simp

theorem removeStep_ok (f : Backup) (c : String) (w : World) (h : w.quiet)
    (hc : w.content (srcPath f) = some c) :
    removeStep f w =
      Println ["Removido:", f.Nome] ((w.enter (Call.remove (srcPath f))).setFile (srcPath f) none)
    := by
  rw [removeStep, show Join sourceDir f.Nome = srcPath f from rfl, osRemove_ok _ c w h hc]

theorem copyStep_ok (f : Backup) (c : String) (w : World) (h : w.quiet)
    (hc : w.content (srcPath f) = some c) (hne : Clean (srcPath f) ≠ Clean (dstPath f)) :
    copyStep f w =
      Println ["Copiado:", f.Nome]
        (((((w.enter (Call.openFile (srcPath f))).enter (Call.create (dstPath f))).setFile
          (dstPath f) (some "")).enter (Call.copy (dstPath f) (srcPath f))).setFile
            (dstPath f) (some c)) := by
  rw [copyStep, show Join sourceDir f.Nome = srcPath f from rfl,
    show Join destinationDir f.Nome = dstPath f from rfl, copyFile_ok _ _ c w h hc hne]

theorem bootstrap_content (w : World) (q : String) : (bootstrap w).content q = w.content q := by
  unfold World.content
  rw [(bootstrap_frame w).1]

theorem createLog_quiet (env : Env) (bs : List Backup) (p : String) (w : World) (h : w.quiet) :
    ∃ u, createLog env bs p w = (none, u) ∧ u.quiet ∧ u.stdout = w.stdout ∧
      ∀ q, u.content q = if Clean q = Clean p then some (render env bs) else w.content q := by
  have hok := createLog_ok env bs p w (quiet_okFor w _ h)
  refine ⟨_, hok, ?_, ?_, ?_⟩
  · exact quiet_of_faults_suffix w _ (bs.length + 1) h (by simp only)
  · simp only
  · intro q
    simp only [World.content]

theorem removed_world (name s : String) (w : World) (h : w.quiet) :
    (Println ["Removido:", name] ((w.enter (Call.remove s)).setFile s none)).quiet ∧
    (Println ["Removido:", name] ((w.enter (Call.remove s)).setFile s none)).stdout =
      w.stdout ++ ["Removido: " ++ name ++ "\n"] ∧
    ∀ q, (Println ["Removido:", name] ((w.enter (Call.remove s)).setFile s none)).content q =
      if Clean q = Clean s then none else w.content q := by
  refine ⟨quiet_Println _ _ (quiet_setFile _ _ _ (quiet_enter w (Call.remove s) h)), ?_, ?_⟩
  · simp [Println, println_line, World.setFile, World.enter]
  · intro q
    simp only [content_Println, content_setFile, content_enter]

theorem copied_world (name s d c : String) (w : World) (h : w.quiet) :
    (Println ["Copiado:", name] (((((w.enter (Call.openFile s)).enter (Call.create d)).setFile
      d (some "")).enter (Call.copy d s)).setFile d (some c))).quiet ∧
    (Println ["Copiado:", name] (((((w.enter (Call.openFile s)).enter (Call.create d)).setFile
      d (some "")).enter (Call.copy d s)).setFile d (some c))).stdout =
      w.stdout ++ ["Copiado: " ++ name ++ "\n"] ∧
    ∀ q, (Println ["Copiado:", name] (((((w.enter (Call.openFile s)).enter
        (Call.create d)).setFile d (some "")).enter (Call.copy d s)).setFile d (some c))).content q
      = if Clean q = Clean d then some c else w.content q := by
  have q1 := quiet_enter w (Call.openFile s) h
  have q2 := quiet_enter _ (Call.create d) q1
  have q3 := quiet_enter _ (Call.copy d s) (quiet_setFile _ d (some "") q2)
  refine ⟨quiet_Println _ _ (quiet_setFile _ d (some c) q3), ?_, ?_⟩
  · simp [Println, println_line, World.setFile, World.enter]
  · intro q
    simp only [content_Println, content_setFile, content_enter]
    by_cases hq : Clean q = Clean d <;> simp [hq]

theorem removeStep_quiet (f : Backup) (c : String) (w : World) (h : w.quiet)
    (hc : w.content (srcPath f) = some c) :
    (removeStep f w).quiet ∧
    (removeStep f w).stdout = w.stdout ++ ["Removido: " ++ f.Nome ++ "\n"] ∧
    ∀ q, (removeStep f w).content q =
      if Clean q = Clean (srcPath f) then none else w.content q := by
  rw [removeStep_ok f c w h hc]
  exact removed_world f.Nome (srcPath f) w h

theorem copyStep_quiet (f : Backup) (c : String) (w : World) (h : w.quiet)
    (hc : w.content (srcPath f) = some c) (hne : Clean (srcPath f) ≠ Clean (dstPath f)) :
    (copyStep f w).quiet ∧
    (copyStep f w).stdout = w.stdout ++ ["Copiado: " ++ f.Nome ++ "\n"] ∧
    ∀ q, (copyStep f w).content q =
      if Clean q = Clean (dstPath f) then some c else w.content q := by
  rw [copyStep_ok f c w h hc hne]
  exact copied_world f.Nome (srcPath f) (dstPath f) c w h

/-- C10. Metadata `[a.bak created one day before now, b.bak created five days before now]`,
retention of three days, both artifacts in the source store and no call failing:
classification gives `toCopy = [a.bak]`, `toDelete = [b.bak]`; after the run the source
store no longer has `b.bak`, the destination store has `a.bak` with the content of the
source `a.bak` (which is still there), the copied-set log is exactly the line of `a.bak`,
and the run printed the removal, the copy and the success message. -/
theorem scenario_two_records (env : Env) (w : World) (a b : Backup) (data ca cb : String)
    (ha : a.Nome = "a.bak") (hb : b.Nome = "b.bak")
    (hta : a.DataCriacao.unixNano = env.now.unixNano - 1 * nanosPerDay)
    (htb : b.DataCriacao.unixNano = env.now.unixNano - 5 * nanosPerDay)
    (hquiet : w.quiet)
    (hmock : w.content mockFile = some data) (hparse : env.unmarshal data = Except.ok [a, b])
    (hca : w.content (Join sourceDir "a.bak") = some ca)
    (hcb : w.content (Join sourceDir "b.bak") = some cb) :
    classify [a, b] (cutoff env.now 3) = ([a], [b]) ∧
    (main env w).content (Join sourceDir "b.bak") = none ∧
    (main env w).content (Join destinationDir "a.bak") = some ca ∧
    (main env w).content (Join sourceDir "a.bak") = some ca ∧
    (main env w).content logTo = some (logLine env a) ∧
    (main env w).stdout = w.stdout ++ ["Removido: b.bak\n", "Copiado: a.bak\n", successMsg] := by
  have hplan : classify [a, b] (cutoff env.now 3) = ([a], [b]) := by
    have hbound := AddDate_bound env.now (-3)
    have h1 : ¬ a.DataCriacao.unixNano < (cutoff env.now 3).unixNano := by
      rw [hta, cutoff]; unfold nanosPerDay at *; omega
    have h2 : b.DataCriacao.unixNano < (cutoff env.now 3).unixNano := by
      rw [htb, cutoff]; unfold nanosPerDay at *; omega
    simp only [classify, List.foldl, classifyStep, Time.Before, h1, h2,
      decide_True, decide_False, if_true, if_false, Bool.false_eq_true, List.nil_append]
  have hplan1 : (plan env [a, b]).1 = [a] := by rw [plan]; exact congrArg Prod.fst hplan
  have hplan2 : (plan env [a, b]).2 = [b] := by rw [plan]; exact congrArg Prod.snd hplan
  have psa : srcPath a = Join sourceDir "a.bak" := by rw [srcPath, ha]
  have psb : srcPath b = Join sourceDir "b.bak" := by rw [srcPath, hb]
  have pda : dstPath a = Join destinationDir "a.bak" := by rw [dstPath, ha]
  -- cleaned paths of the files involved
  have k1 : Clean (Join sourceDir "a.bak") = "valcann/backupsFrom/a.bak" := by decide
  have k2 : Clean (Join sourceDir "b.bak") = "valcann/backupsFrom/b.bak" := by decide
  have k3 : Clean (Join destinationDir "a.bak") = "valcann/backupsTo/a.bak" := by decide
  have k4 : Clean logFrom = "valcann/backupsFrom.log" := by decide
  have k5 : Clean logTo = "valcann/backupsTo.log" := by decide
  -- loading and the full-set log
  have q0 := bootstrap_quiet w hquiet
  have hl := loadMock_ok env mockFile data [a, b] (bootstrap w) q0
    (by rw [bootstrap_content]; exact hmock) hparse
  have q1 := quiet_enter (bootstrap w) (Call.readFile mockFile) q0
  obtain ⟨w2, hc, q2, s2, c2⟩ := createLog_quiet env [a, b] logFrom _ q1
  have hm := main_of_load_ok_log_ok env w _ w2 [a, b] hl hc
  have c2' : ∀ q, Clean q ≠ "valcann/backupsFrom.log" → w2.content q = w.content q := by
    intro q hq
    rw [c2 q, k4, if_neg hq, content_enter, bootstrap_content]
  -- delete phase
  have hcb2 : w2.content (srcPath b) = some cb := by
    rw [psb, c2' _ (by rw [k2]; decide)]; exact hcb
  obtain ⟨q3, s3, c3⟩ := removeStep_quiet b cb w2 q2 hcb2
  -- copy phase
  have hca3 : (removeStep b w2).content (srcPath a) = some ca := by
    rw [c3, psa, psb, k1, k2, if_neg (by decide), c2' _ (by rw [k1]; decide)]; exact hca
  obtain ⟨q4, s4, c4⟩ := copyStep_quiet a ca (removeStep b w2) q3 hca3
    (by rw [psa, pda, k1, k3]; decide)
  -- copied-set log
  have hafter : afterPhases env [a, b] w2 = copyStep a (removeStep b w2) := by
    rw [afterPhases, hplan1, hplan2]; rfl
  obtain ⟨w5, hc5, _, s5, c5⟩ := createLog_quiet env [a] logTo _ q4
  have hfin : main env w = Println ["Processo concluído com sucesso!"] w5 := by
    rw [hm, process_eq, hplan1, hafter, hc5]
  have hrender : render env [a] = logLine env a := by simp [render]
  refine ⟨hplan, ?_, ?_, ?_, ?_, ?_⟩
  · rw [hfin, content_Println, c5, k2, k5, if_neg (by decide), c4, pda, k2, k3,
      if_neg (by decide), c3, psb, if_pos rfl]
  · rw [hfin, content_Println, c5, k3, k5, if_neg (by decide), c4, pda, if_pos rfl]
  · rw [hfin, content_Println, c5, k1, k5, if_neg (by decide), c4, pda, k1, k3,
      if_neg (by decide)]
    rw [psa] at hca3
    exact hca3
  · rw [hfin, content_Println, c5, if_pos rfl, hrender]
  · have hs : (Println ["Processo concluído com sucesso!"] w5).stdout
        = w5.stdout ++ [successMsg] := by
      have h : String.intercalate " " ["Processo concluído com sucesso!"] ++ "\n"
          = successMsg := by decide
      simp [Println, h]
    rw [hfin, hs, s5, s4, s3, s2, ha, hb]
    simp [World.enter, (bootstrap_frame w).2.1]

/-! ## Concrete runs -/

/-- Witness for C4: the sample run completes and its copied-set log is the report of `[recA]`. -/
theorem copied_log_is_report_of_toCopy_witness :
    loadMock (sampleEnv [recA, recB]) mockFile (bootstrap (worldOf sampleFiles [])) =
      (Except.ok [recA, recB], loadedWorld (sampleEnv [recA, recB]) (worldOf sampleFiles [])) ∧
    createLog (sampleEnv [recA, recB]) [recA, recB] logFrom
        (loadedWorld (sampleEnv [recA, recB]) (worldOf sampleFiles [])) =
      (none, loggedWorld (sampleEnv [recA, recB]) [recA, recB] (worldOf sampleFiles [])) ∧
    (main (sampleEnv [recA, recB]) (worldOf sampleFiles [])).content logTo =
      some (render (sampleEnv [recA, recB]) [recA]) :=
  ⟨by rfl, by rfl,
   (copied_log_is_report_of_toCopy (sampleEnv [recA, recB]) (worldOf sampleFiles [])
      (loadedWorld (sampleEnv [recA, recB]) (worldOf sampleFiles []))
      (loggedWorld (sampleEnv [recA, recB]) [recA, recB] (worldOf sampleFiles []))
      [recA, recB] (by rfl) (by rfl)).2.1 (by decide)⟩

/-- C5 (counterexample). The artifact of `a.bak` is missing from the source store, so its copy
fails; the run completes and the copied-set log still holds the line of `a.bak`. -/
theorem failed_copy_is_logged_counterexample :
    (plan (sampleEnv [recA, recB]) [recA, recB]).1 = [recA] ∧
    (copyFile (srcPath recA) (dstPath recA)
      (deletePhase [recB]
        (loggedWorld (sampleEnv [recA, recB]) [recA, recB]
          (worldOf [("valcann/mock.json", "[...]")] [])))).1
      = some (errNotExist "open" (srcPath recA)) ∧
    (main (sampleEnv [recA, recB]) (worldOf [("valcann/mock.json", "[...]")] [])).stdout =
      ["Removido: b.bak\n",
       "Erro ao copiar: a.bak open valcann/backupsFrom/a.bak: no such file or directory\n",
       successMsg] ∧
    (main (sampleEnv [recA, recB]) (worldOf [("valcann/mock.json", "[...]")] [])).content logTo =
      some (logLine (sampleEnv [recA, recB]) recA) := by
  refine ⟨by decide, by rfl, by decide, by rfl⟩

/-- Witness for C5: with the artifact of `a.bak` missing, its copy fails and the diagnostic is
in the output of the run. -/
theorem copy_failure_reported_and_still_logged_witness :
    (copyFile (srcPath recA) (dstPath recA)
      (copyPhase [] (deletePhase (plan (sampleEnv [recA, recB]) [recA, recB]).2
        (loggedWorld (sampleEnv [recA, recB]) [recA, recB]
          (worldOf [("valcann/mock.json", "[...]")] []))))).1
      = some (errNotExist "open" (srcPath recA)) ∧
    "Erro ao copiar: " ++ recA.Nome ++ " " ++ (errNotExist "open" (srcPath recA)).msg ++ "\n" ∈
      (main (sampleEnv [recA, recB]) (worldOf [("valcann/mock.json", "[...]")] [])).stdout :=
  ⟨by rfl,
   (copy_failure_reported_and_still_logged (sampleEnv [recA, recB])
      (worldOf [("valcann/mock.json", "[...]")] [])
      (loadedWorld (sampleEnv [recA, recB]) (worldOf [("valcann/mock.json", "[...]")] []))
      (loggedWorld (sampleEnv [recA, recB]) [recA, recB]
        (worldOf [("valcann/mock.json", "[...]")] []))
      [recA, recB] [] [] recA (errNotExist "open" (srcPath recA))
      (by rfl) (by rfl) (by decide) (by rfl)).2.2.2.1⟩

/-- C7 (counterexample). Two records named `x.bak`, one older and one newer than the cutoff:
the run removes `valcann/backupsFrom/x.bak` and later opens the same path for copying. -/
theorem same_path_deleted_and_copied_counterexample :
    (plan (sampleEnv [recOld, recNew]) [recOld, recNew]) = ([recNew], [recOld]) ∧
    Call.remove "valcann/backupsFrom/x.bak" ∈
      (main (sampleEnv [recOld, recNew])
        (worldOf [("valcann/mock.json", "[...]"), ("valcann/backupsFrom/x.bak", "X")] [])).trace ∧
    Call.openFile "valcann/backupsFrom/x.bak" ∈
      (main (sampleEnv [recOld, recNew])
        (worldOf [("valcann/mock.json", "[...]"), ("valcann/backupsFrom/x.bak", "X")] [])).trace
    := by
  refine ⟨by decide, by decide, by decide⟩

/-- Witness for C7: in the sample run `b.bak` is removed and never opened for copying. -/
theorem delete_and_copy_targets_disjoint_witness :
    (worldOf sampleFiles []).trace = [] ∧
    ([recA, recB].map srcPath).Nodup ∧
    Call.remove "valcann/backupsFrom/b.bak" ∈
      (main (sampleEnv [recA, recB]) (worldOf sampleFiles [])).trace ∧
    Call.openFile "valcann/backupsFrom/b.bak" ∉
      (main (sampleEnv [recA, recB]) (worldOf sampleFiles [])).trace :=
  ⟨rfl, by decide, by decide,
   (delete_and_copy_targets_disjoint (sampleEnv [recA, recB]) (worldOf sampleFiles [])
      (loadedWorld (sampleEnv [recA, recB]) (worldOf sampleFiles [])) [recA, recB]
      rfl (by rfl) (by decide)).1 "valcann/backupsFrom/b.bak" (by decide)⟩

/-- Witness for C10: the scenario on the sample store. -/
theorem scenario_two_records_witness :
    (worldOf sampleFiles []).quiet ∧
    (main (sampleEnv [recA, recB]) (worldOf sampleFiles [])).content
      "valcann/backupsFrom/b.bak" = none ∧
    (main (sampleEnv [recA, recB]) (worldOf sampleFiles [])).content
      "valcann/backupsTo/a.bak" = some "AAA" ∧
    (main (sampleEnv [recA, recB]) (worldOf sampleFiles [])).content logTo =
      some ("Nome: a.bak | Tamanho: 10 bytes | Criado: 2024-01-09T00:00:00Z" ++
        " | Última modificação: 2024-01-10T00:00:00Z\n") :=
  have h := scenario_two_records (sampleEnv [recA, recB]) (worldOf sampleFiles []) recA recB
    "[...]" "AAA" "BBB" rfl rfl (by decide) (by decide) (by decide) (by rfl) (by rfl) (by rfl)
    (by rfl)
  ⟨by decide, h.2.1, h.2.2.1, h.2.2.2.2.1⟩

end BackupRetention
